import Mathlib

/-!
# MuseMetric — verification of the ranking/statistics engine

A shallow embedding, in Lean 4, of the core of the MuseMetric catalog
application: the score model, the ordering comparator and stable sort, the
enrichment (per-album averages and the flattened annotated song list), the
countdown presentation sequence, the LRC lyric parser, the import sanitizer
over dynamic (JSON-like) values, the fuzzy file matcher, and the dashboard
table comparator.

Numbers are embedded as exact rationals (`ℚ`).  JavaScript's stable
`Array.prototype.sort` is embedded as `List.mergeSort`, the standard stable
merge sort; note that the epsilon-based comparator used by the application is
not transitive, so different stable sorting algorithms can disagree on inputs
whose pairwise comparisons are cyclic — theorems below exhibit this
explicitly where it matters.

Strings are processed through `List Char` so that all definitions reduce.
-/

namespace MuseMetric

/-- Three-dimensional score record (`types.ts`, `Score`). -/
structure Scores where
  lyrics : ℚ
  composition : ℚ
  arrangement : ℚ
deriving DecidableEq, Repr

/-- A catalog song (`types.ts`, `Song`).  Optional fields are `Option`s. -/
structure Song where
  id : String
  title : String
  comment : Option String := none
  scores : Scores
  hasAudio : Option Bool := none
  hasLrc : Option Bool := none
  highlightStartTime : Option ℚ := none
deriving DecidableEq, Repr

/-- A catalog album (`types.ts`, `Album`). -/
structure Album where
  id : String
  title : String
  year : String
  coverUrl : Option String := none
  songs : List Song
deriving DecidableEq, Repr

/-- A catalog artist (`types.ts`, `Singer`). -/
structure Singer where
  id : String
  name : String
  albums : List Album
deriving DecidableEq, Repr

/-- A song annotated with derived statistics (`types.ts`, `SongWithStats`). -/
structure SongWithStats extends Song where
  totalScore : ℚ
  albumId : String
  albumName : String
  albumYear : String
  albumCover : Option String := none
deriving DecidableEq, Repr

/-- An album annotated with its four averages (`types.ts`, `AlbumWithStats`). -/
structure AlbumWithStats extends Album where
  averageTotal : ℚ
  averageLyrics : ℚ
  averageComposition : ℚ
  averageArrangement : ℚ
deriving DecidableEq, Repr

/-- Mean of the three dimension scores (`utils.ts`, `calculateSongTotal`). -/
def calculateSongTotal (lyrics composition arrangement : ℚ) : ℚ :=
  (lyrics + composition + arrangement) / 3

/-- The core ordering comparator (`utils.ts`, `sortSongsAlgorithm`):
total score descending with a `0.001` tie window, composition descending as
tie-break.  Returns the comparator value as a rational, mirroring the
JavaScript number returned to `Array.prototype.sort`. -/
def sortSongsAlgorithm (a b : SongWithStats) : ℚ :=
  let diff := b.totalScore - a.totalScore
  if |diff| < 0.001 then
    b.scores.composition - a.scores.composition
  else
    diff

/-- Boolean lift of the comparator: `a` may be placed before `b` exactly when
the comparator is nonpositive.  This is the order given to the stable sort. -/
def songLe (a b : SongWithStats) : Bool :=
  decide (sortSongsAlgorithm a b ≤ 0)

/-- The stable comparator sort used throughout the application
(`[...].sort(sortSongsAlgorithm)`), embedded as the stable `List.mergeSort`. -/
def sortSongs (songs : List SongWithStats) : List SongWithStats :=
  songs.mergeSort songLe

/-- Per-album enrichment (`utils.ts`, `enrichSingerData`, first half): the
accumulation loop over the album's songs and the four guarded averages. -/
def enrichAlbum (album : Album) : AlbumWithStats :=
  let totalSongs := album.songs.length
  let sumLyrics := album.songs.foldl (fun acc song => acc + song.scores.lyrics) 0
  let sumComp := album.songs.foldl (fun acc song => acc + song.scores.composition) 0
  let sumArr := album.songs.foldl (fun acc song => acc + song.scores.arrangement) 0
  let sumTotal := album.songs.foldl
    (fun acc song =>
      acc + calculateSongTotal song.scores.lyrics song.scores.composition song.scores.arrangement) 0
  { toAlbum := album
    averageLyrics := if totalSongs = 0 then 0 else sumLyrics / totalSongs
    averageComposition := if totalSongs = 0 then 0 else sumComp / totalSongs
    averageArrangement := if totalSongs = 0 then 0 else sumArr / totalSongs
    averageTotal := if totalSongs = 0 then 0 else sumTotal / totalSongs }

/-- Result shape of `enrichSingerData`. -/
structure EnrichedSinger where
  albumsWithStats : List AlbumWithStats
  allSongs : List SongWithStats
deriving Repr

/-- Flattening and annotation (`utils.ts`, `enrichSingerData`). -/
def enrichSingerData (singer : Singer) : EnrichedSinger :=
  { albumsWithStats := singer.albums.map enrichAlbum
    allSongs := (singer.albums.map (fun album =>
      album.songs.map (fun song =>
        ({ toSong := song
           totalScore :=
             calculateSongTotal song.scores.lyrics song.scores.composition song.scores.arrangement
           albumId := album.id
           albumName := album.title
           albumYear := album.year
           albumCover := album.coverUrl } : SongWithStats)))).flatten }

/-- A presentation entry: a stats-annotated song plus its assigned rank
(`utils.ts`, `PresentationSong`). -/
structure PresentationSong extends SongWithStats where
  rank : Nat
deriving DecidableEq, Repr

/-- Countdown builder (`utils.ts`, `getPresentationSongs`): sort descending,
assign `rank = index + 1`, then reverse for the worst-first reveal. -/
def getPresentationSongs (singer : Singer) : List PresentationSong :=
  let allSongs := (enrichSingerData singer).allSongs
  let sortedByRank := sortSongs allSongs
  let songsWithRank := sortedByRank.mapIdx (fun idx s =>
    { toSongWithStats := s, rank := idx + 1 })
  songsWithRank.reverse

/-! ## LRC lyric parser (`utils.ts`, `parseLrc`) -/

/-- A timed lyric cue (`utils.ts`, `LrcLine`). -/
structure LrcLine where
  time : ℚ
  text : String
deriving DecidableEq, Repr

/-- Numeric value of a decimal digit character. -/
def digitVal (c : Char) : Nat := c.toNat - '0'.toNat

/-- Greedy three-digit fractional field followed by a closing bracket:
the first alternative tried by the regex fragment `(\d\x7b2,3\x7d)\]`. -/
def lrcFrac3 : List Char → Option (Nat × List Char)
  | f1 :: f2 :: f3 :: ']' :: tail =>
    if f1.isDigit && f2.isDigit && f3.isDigit then
      some (100 * digitVal f1 + 10 * digitVal f2 + digitVal f3, tail)
    else none
  | _ => none

/-- Two-digit fractional field followed by a closing bracket: the backtracking
alternative of the regex fragment `(\d\x7b2,3\x7d)\]`. -/
def lrcFrac2 : List Char → Option (Nat × List Char)
  | f1 :: f2 :: ']' :: tail =>
    if f1.isDigit && f2.isDigit then
      some (10 * digitVal f1 + digitVal f2, tail)
    else none
  | _ => none

/-- Remove leading and trailing whitespace, as JavaScript `String.trim`. -/
def trimChars (cs : List Char) : List Char :=
  ((cs.dropWhile Char.isWhitespace).reverse.dropWhile Char.isWhitespace).reverse

/-- Per-line cue extraction: the body of the `forEach` in `parseLrc`, applying
the anchored regex and the non-empty-text

check before a cue is pushed. -/
def lrcCue (line : String) : Option LrcLine :=
  match line.toList with
  | '[' :: d1 :: d2 :: ':' :: s1 :: s2 :: '.' :: rest =>
    if d1.isDigit && d2.isDigit && s1.isDigit && s2.isDigit then
      let minutes := 10 * digitVal d1 + digitVal d2
      let seconds := 10 * digitVal s1 + digitVal s2
      match lrcFrac3 rest with
      | some (milliseconds, tail) =>
        let time : ℚ := minutes * 60 + seconds + (milliseconds : ℚ) / 1000
        let text := trimChars tail
        if text.isEmpty then none else some ⟨time, String.mk text⟩
      | none =>
        match lrcFrac2 rest with
        | some (milliseconds, tail) =>
          let time : ℚ := minutes * 60 + seconds + (milliseconds : ℚ) / 100
          let text := trimChars tail
          if text.isEmpty then none else some ⟨time, String.mk text⟩
        | none => none
    else none
  | _ => none

/-- Split a character stream at newline characters, as JavaScript
`split('\n')` (no separator collapsing; an empty input gives one empty line). -/
def splitLines : List Char → List (List Char)
  | [] => [[]]
  | c :: rest =>
    if c = '\n' then [] :: splitLines rest
    else
      match splitLines rest with
      | h :: t => (c :: h) :: t
      | [] => [[c]]

/-- The lyric parser (`utils.ts`, `parseLrc`): split into lines, extract cues,
sort ascending by time with the numeric comparator `a.time - b.time`. -/
def parseLrc (lrcContent : String) : List LrcLine :=
  let lines := (splitLines lrcContent.toList).map String.mk
  let lrcData := lines.filterMap lrcCue
  lrcData.mergeSort (fun a b => decide (a.time - b.time ≤ 0))

/-! ## Dynamic values and the import sanitizer (`utils.ts`, `sanitizeSingerImport`)

The sanitizer receives arbitrary parsed JSON, so it is embedded over a
JSON-like dynamic value type.  JavaScript property access throws a
`TypeError` exactly when its base is `null` or `undefined`, so the embedding
returns `Except String`. -/

/-- A dynamic JavaScript value, as far as JSON-shaped inputs reach. -/
inductive JsValue where
  | null
  | undefined
  | bool (b : Bool)
  | num (q : ℚ)
  | str (s : String)
  | arr (elems : List JsValue)
  | obj (fields : List (String × JsValue))

/-- Whether a value is `null` or `undefined` (property access throws). -/
def isNullish : JsValue → Bool
  | .null => true
  | .undefined => true
  | _ => false

/-- Property lookup on a value already known not to be nullish; anything
without the property (including primitives) yields `undefined`. -/
def fieldOf (v : JsValue) (key : String) : JsValue :=
  match v with
  | .obj fields =>
    match fields.find? (fun p => p.1 == key) with
    | some p => p.2
    | none => .undefined
  | _ => .undefined

/-- JavaScript truthiness on the modelled values. -/
def jsTruthy : JsValue → Bool
  | .null => false
  | .undefined => false
  | .bool b => b
  | .num q => decide (q ≠ 0)
  | .str s => !(s == "")
  | .arr _ => true
  | .obj _ => true

/-- JavaScript `a || b`. -/
def jsOr (a b : JsValue) : JsValue := if jsTruthy a then a else b

/-- JavaScript `a ?? b` (nullish coalescing). -/
def jsCoalesce (a b : JsValue) : JsValue := if isNullish a then b else a

/-- JavaScript `parseFloat`, for the numeric and string inputs the
repository's data shapes exercise: leading whitespace, an optional sign and
a decimal `digits[.digits]` prefix (exponent forms and the object/array
string-coercion corner cases are not modelled; every unmodelled input
yields `none`, the embedding of `NaN`). -/
def parseFloatStr (cs0 : List Char) : Option ℚ :=
  let cs := cs0.dropWhile Char.isWhitespace
  let sign : ℚ := match cs with
    | '-' :: _ => -1
    | _ => 1
  let cs := match cs with
    | '-' :: rest => rest
    | '+' :: rest => rest
    | _ => cs
  let intPart := cs.takeWhile Char.isDigit
  let cs2 := cs.dropWhile Char.isDigit
  let fracPart := match cs2 with
    | '.' :: rest => rest.takeWhile Char.isDigit
    | _ => []
  if intPart.isEmpty && fracPart.isEmpty then none
  else
    let intVal : Nat := intPart.foldl (fun acc c => 10 * acc + digitVal c) 0
    let fracVal : Nat := fracPart.foldl (fun acc c => 10 * acc + digitVal c) 0
    some (sign * ((intVal : ℚ) + (fracVal : ℚ) / (10 : ℚ) ^ fracPart.length))

/-- JavaScript `parseFloat` on a dynamic value. -/
def parseFloatJs : JsValue → Option ℚ
  | .num q => some q
  | .str s => parseFloatStr s.toList
  | _ => none

/-- The `parseScore` helper inside `sanitizeSingerImport`: parse as float,
resolve `NaN` to `0`. -/
def parseScore (val : JsValue) : ℚ := (parseFloatJs val).getD 0

/-- A sanitized song as `sanitizeSingerImport` actually builds it: scores are
guaranteed numeric, every other field is copied (or defaulted) verbatim. -/
structure DynSong where
  id : JsValue
  title : JsValue
  comment : JsValue
  scores : Scores
  hasAudio : JsValue
  hasLrc : JsValue
  highlightStartTime : JsValue

/-- A sanitized album as built by `sanitizeSingerImport`. -/
structure DynAlbum where
  id : JsValue
  title : JsValue
  year : JsValue
  coverUrl : JsValue
  songs : List DynSong

/-- A sanitized singer as built by `sanitizeSingerImport`. -/
structure DynSinger where
  id : JsValue
  name : JsValue
  albums : List DynAlbum

/-- Sanitize one song record.  `gen` is the stream of fresh identifiers
standing for `generateId` (whose `Math.random` source is modelled as an
injected supply); `n` is the next unused index. -/
def sanitizeSong (gen : Nat → String) (n : Nat) (song : JsValue) :
    Except String (DynSong × Nat) :=
  if isNullish song then .error "TypeError: cannot read properties of null" else
  let rawScores := jsOr (fieldOf song "scores") (jsOr (fieldOf song "score") (.obj []))
  let scores : Scores :=
    { lyrics := parseScore (jsCoalesce (fieldOf rawScores "lyrics") (fieldOf rawScores "Lyrics"))
      composition :=
        parseScore (jsCoalesce (fieldOf rawScores "composition") (fieldOf rawScores "Composition"))
      arrangement :=
        parseScore (jsCoalesce (fieldOf rawScores "arrangement") (fieldOf rawScores "Arrangement")) }
  let idn : JsValue × Nat :=
    if jsTruthy (fieldOf song "id") then (fieldOf song "id", n) else (.str (gen n), n + 1)
  .ok
    ({ id := idn.1
       title := jsOr (fieldOf song "title") (.str "Untitled Song")
       comment := jsOr (fieldOf song "comment") (.str "")
       scores := scores
       hasAudio := fieldOf song "hasAudio"
       hasLrc := fieldOf song "hasLrc"
       highlightStartTime := fieldOf song "highlightStartTime" }, idn.2)

/-- Sanitize a list of song records, threading the id supply. -/
def sanitizeSongs (gen : Nat → String) : Nat → List JsValue →
    Except String (List DynSong × Nat)
  | n, [] => .ok ([], n)
  | n, song :: rest => do
    let (d, n1) ← sanitizeSong gen n song
    let (ds, n2) ← sanitizeSongs gen n1 rest
    .ok (d :: ds, n2)

/-- Sanitize one album record. -/
def sanitizeAlbum (gen : Nat → String) (n : Nat) (album : JsValue) :
    Except String (DynAlbum × Nat) :=
  if isNullish album then .error "TypeError: cannot read properties of null" else
  let idn : JsValue × Nat :=
    if jsTruthy (fieldOf album "id") then (fieldOf album "id", n) else (.str (gen n), n + 1)
  let songsR : Except String (List DynSong × Nat) :=
    match fieldOf album "songs" with
    | .arr songs => sanitizeSongs gen idn.2 songs
    | _ => .ok ([], idn.2)
  do
    let (ds, n2) ← songsR
    .ok
      ({ id := idn.1
         title := jsOr (fieldOf album "title") (.str "Untitled Album")
         year := jsOr (fieldOf album "year") (.str "Unknown Year")
         coverUrl := fieldOf album "coverUrl"
         songs := ds }, n2)

/-- Sanitize a list of album records. -/
def sanitizeAlbums (gen : Nat → String) : Nat → List JsValue →
    Except String (List DynAlbum × Nat)
  | n, [] => .ok ([], n)
  | n, album :: rest => do
    let (d, n1) ← sanitizeAlbum gen n album
    let (ds, n2) ← sanitizeAlbums gen n1 rest
    .ok (d :: ds, n2)

/-- Sanitize one singer record. -/
def sanitizeSinger (gen : Nat → String) (n : Nat) (singer : JsValue) :
    Except String (DynSinger × Nat) :=
  if isNullish singer then .error "TypeError: cannot read properties of null" else
  let idn : JsValue × Nat :=
    if jsTruthy (fieldOf singer "id") then (fieldOf singer "id", n) else (.str (gen n), n + 1)
  let albumsR : Except String (List DynAlbum × Nat) :=
    match fieldOf singer "albums" with
    | .arr albums => sanitizeAlbums gen idn.2 albums
    | _ => .ok ([], idn.2)
  do
    let (as_, n2) ← albumsR
    .ok
      ({ id := idn.1
         name := jsOr (fieldOf singer "name") (.str "Unknown Singer")
         albums := as_ }, n2)

/-- Sanitize a list of singer records. -/
def sanitizeSingers (gen : Nat → String) : Nat → List JsValue →
    Except String (List DynSinger × Nat)
  | n, [] => .ok ([], n)
  | n, singer :: rest => do
    let (d, n1) ← sanitizeSinger gen n singer
    let (ds, n2) ← sanitizeSingers gen n1 rest
    .ok (d :: ds, n2)

/-- The import sanitizer (`utils.ts`, `sanitizeSingerImport`): a non-array
top level yields the empty list, otherwise each entry is sanitized in order.
Raising `.error` embeds a thrown JavaScript `TypeError`. -/
def sanitizeSingerImport (gen : Nat → String) (data : JsValue) :
    Except String (List DynSinger) :=
  match data with
  | .arr singers => (sanitizeSingers gen 0 singers).map (fun p => p.1)
  | _ => .ok []

/-- Sufficient well-formedness for the sanitizer not to throw: no singer,
album or song entry position holds `null` or `undefined`. -/
def wellBased (data : JsValue) : Bool :=
  match data with
  | .arr singers => singers.all (fun singer =>
      !isNullish singer &&
      (match fieldOf singer "albums" with
       | .arr albums => albums.all (fun album =>
           !isNullish album &&
           (match fieldOf album "songs" with
            | .arr songs => songs.all (fun song => !isNullish song)
            | _ => true))
       | _ => true))
  | _ => true

/-! ## Fuzzy file matcher (`fileMatcher`, `matchAndPersist`) -/

/-- Media kind for a matched file. -/
inductive MediaType where
  | audio
  | lrc
deriving DecidableEq, Repr

/-- Lower-cased character stream of a string. -/
def lowerChars (s : String) : List Char := s.toList.map Char.toLower

/-- Whether `cs` ends with `suffix`. -/
def endsWithChars (cs suffix : List Char) : Bool :=
   List.isPrefixOf suffix.reverse cs.reverse

/-- Audio-extension test: the regex `\.(mp3|flac|wav|m4a|ogg|aac)$` with the
case-insensitive flag. -/
def isAudioFile (fileName : String) : Bool :=
  let lower := lowerChars fileName
  [".mp3", ".flac", ".wav", ".m4a", ".ogg", ".aac"].any
    (fun ext => endsWithChars lower ext.toList)

/-- Lyric-extension test: the regex `\.lrc$`, case-insensitive. -/
def isLrcFile (fileName : String) : Bool :=
  endsWithChars (lowerChars fileName) ".lrc".toList

/-- Filename normalization (`normalize` in the file matcher): drop the
extension (everything from the last dot, with the JavaScript `|| str`
fallback whenever the part before the last dot is empty), drop a leading run
of digits, whitespace, dots and hyphens, lower-case, then remove all
whitespace. -/
def normalize (str : String) : List Char :=
  let cs := str.toList
  let base :=
    match cs.reverse.dropWhile (fun c => !(c == '.')) with
    | [] => cs
    | _ :: tl => if tl.isEmpty then cs else tl.reverse
  let stripped := base.dropWhile
    (fun c => c.isDigit || c.isWhitespace || c == '.' || c == '-')
  (stripped.map Char.toLower).filter (fun c => !c.isWhitespace)

/-- Title normalization (`normalizeTitle`): lower-case and remove all
whitespace. -/
def normalizeTitle (str : String) : List Char :=
  (str.toList.map Char.toLower).filter (fun c => !c.isWhitespace)

/-- Substring containment on character streams, as JavaScript
`String.includes`. -/
def listContains (hay needle : List Char) : Bool :=
  match hay with
  | [] => needle.isEmpty
  | _ :: t => List.isPrefixOf needle hay || listContains t needle

/-- The match rule inside `matchAndPersist`: the normalized filename contains
the normalized title as a substring and the normalized title is non-empty. -/
def matchPred (fileName : String) (song : Song) : Bool :=
  let nTitle := normalizeTitle song.title
  listContains (normalize fileName) nTitle && nTitle.length > 0

/-- First matching song in catalog order (`songs.find(...)`). -/
def findMatchedSong (songs : List Song) (fileName : String) : Option Song :=
  songs.find? (matchPred fileName)

/-- A pending per-song flag update; a `false` field stands for an absent key
of the JavaScript partial-update object (keys are only ever set to `true`). -/
structure SongUpdate where
  hasAudio : Bool := false
  hasLrc : Bool := false
deriving DecidableEq, Repr

/-- Scan state: the `matchedSongsMap` (a JavaScript `Map` in insertion order)
and the two success counters. -/
structure ScanState where
  matchedSongsMap : List (String × SongUpdate) := []
  audio : Nat := 0
  lrc : Nat := 0
deriving Repr

/-- JavaScript `Map.get`. -/
def mapGet (m : List (String × SongUpdate)) (k : String) : Option SongUpdate :=
  (m.find? (fun p => p.1 == k)).map (fun p => p.2)

/-- JavaScript `Map.set`: replace in place or append. -/
def mapSet (m : List (String × SongUpdate)) (k : String) (v : SongUpdate) :
    List (String × SongUpdate) :=
  match m with
  | [] => [(k, v)]
  | p :: t => if p.1 == k then (k, v) :: t else p :: mapSet t k v

/-- One candidate file (`matchAndPersist`): classify by extension, find the
first matching song, persist through the injected capability and record the
update and counter only when persistence succeeds; a persistence failure
(the `catch` branch) leaves the state unchanged.  `persistOk` is the injected
`setFileHandle` capability, telling whether persisting a given
`(songId, mediaType, fileName)` association succeeds. -/
def matchAndPersist (persistOk : String → MediaType → String → Bool)
    (songs : List Song) (st : ScanState) (fileName : String) : ScanState :=
  let isAudio := isAudioFile fileName
  let isLrc := isLrcFile fileName
  if !isAudio && !isLrc then st
  else
    match findMatchedSong songs fileName with
    | none => st
    | some matchedSong =>
      let type := if isAudio then MediaType.audio else MediaType.lrc
      if persistOk matchedSong.id type fileName then
        let u0 := (mapGet st.matchedSongsMap matchedSong.id).getD {}
        let u1 := if isAudio then { u0 with hasAudio := true } else u0
        let audio := if isAudio then st.audio + 1 else st.audio
        let u2 := if isLrc then { u1 with hasLrc := true } else u1
        let lrc := if isLrc then st.lrc + 1 else st.lrc
        { matchedSongsMap := mapSet st.matchedSongsMap matchedSong.id u2
          audio := audio
          lrc := lrc }
      else st

/-- Result of a scan (`MatchingResult`). -/
structure MatchingResult where
  updatedSongs : List Song
  matchedAudioCount : Nat
  matchedLrcCount : Nat
deriving Repr

/-- Merge the accumulated updates back over the input song list
(the `updatedSongs` construction `\x7b...song, ...updates\x7d`). -/
def applyUpdates (songs : List Song) (m : List (String × SongUpdate)) : List Song :=
  songs.map (fun song =>
    match mapGet m song.id with
    | some u =>
      let song1 := if u.hasAudio then { song with hasAudio := some true } else song
      if u.hasLrc then { song1 with hasLrc := some true } else song1
    | none => song)

/-- Flat-list scan (`scanAndMatchFileList`): fold `matchAndPersist` over the
candidate file names in order, then merge updates and report the counters. -/
def scanAndMatchFileList (persistOk : String → MediaType → String → Bool)
    (songs : List Song) (fileNames : List String) : MatchingResult :=
  let final := fileNames.foldl (matchAndPersist persistOk songs) {}
  { updatedSongs := applyUpdates songs final.matchedSongsMap
    matchedAudioCount := final.audio
    matchedLrcCount := final.lrc }

/-! ## Dashboard table sort (`views/DashboardView.tsx`) -/

/-- A song with its precomputed global rank (`SongWithRank`). -/
structure SongWithRank extends SongWithStats where
  rank : Nat
deriving DecidableEq, Repr

/-- Rank assignment in `DashboardView`: position of the song's id in the
core-sorted list, one-based (`findIndex` returning `-1` maps to rank `0`). -/
def songsWithRank (allSongs : List SongWithStats) : List SongWithRank :=
  let sortedByScore := sortSongs allSongs
  allSongs.map (fun song =>
    { toSongWithStats := song
      rank :=
        match sortedByScore.findIdx? (fun s => s.id == song.id) with
        | some i => i + 1
        | none => 0 })

/-- Table sort key (`SortKey`). -/
inductive SortKey where
  | title
  | album
  | lyrics
  | composition
  | arrangement
  | total
deriving DecidableEq, Repr

/-- Table sort direction. -/
inductive SortDir where
  | asc
  | desc
deriving DecidableEq, Repr

/-- Table sort configuration (`SortConfig`). -/
structure SortConfig where
  key : SortKey
  direction : SortDir
deriving DecidableEq, Repr

/-- JavaScript relational comparison of two strings folded to a comparator
value, as in the string branch of `sortData`. -/
def strCmpVal (a b : String) : ℚ :=
  if a < b then -1 else if b < a then 1 else 0

/-- The comparator of `sortData` in `DashboardView`: primary comparison on
the configured key (numeric keys with the `> 0.001` significance test,
string keys lexicographic), a composition tie-break only for the `total`
key (again with the `> 0.001` test), and a final direction-aware rank
tie-break. -/
def sortDataCmp (config : SortConfig) (a b : SongWithRank) : ℚ :=
  let comparison : ℚ :=
    match config.key with
    | .title => strCmpVal a.title b.title
    | .album => strCmpVal a.albumYear b.albumYear
    | .lyrics =>
      if |a.scores.lyrics - b.scores.lyrics| > 0.001 then a.scores.lyrics - b.scores.lyrics else 0
    | .composition =>
      if |a.scores.composition - b.scores.composition| > 0.001 then
        a.scores.composition - b.scores.composition
      else 0
    | .arrangement =>
      if |a.scores.arrangement - b.scores.arrangement| > 0.001 then
        a.scores.arrangement - b.scores.arrangement
      else 0
    | .total =>
      if |a.totalScore - b.totalScore| > 0.001 then a.totalScore - b.totalScore else 0
  if comparison ≠ 0 then
    match config.direction with
    | .asc => comparison
    | .desc => -comparison
  else
    let tieBreak : Option ℚ :=
      match config.key with
      | .total =>
        let compDiff := a.scores.composition - b.scores.composition
        if |compDiff| > 0.001 then
          some (match config.direction with
                | .asc => compDiff
                | .desc => -compDiff)
        else none
      | _ => none
    match tieBreak with
    | some v => v
    | none =>
      match config.direction with
      | .asc => (b.rank : ℚ) - (a.rank : ℚ)
      | .desc => (a.rank : ℚ) - (b.rank : ℚ)

/-! ## Ranking neighborhood window (`DataEntryView`, `rankingNeighbors`) -/

/-- A window entry: a stats-annotated song with its absolute rank and the
focal-song marker. -/
structure NeighborSong extends SongWithStats where
  absoluteRank : Nat
  isCurrent : Bool
deriving DecidableEq, Repr

/-- The ranking-neighborhood query: sort globally, locate the focal song,
take the size-5 window biased two slots above, clamped at both edges
(`slice(start, end)`), and tag each entry with its absolute one-based rank
and the focal marker.  Index arithmetic is over `Int`, as in JavaScript. -/
def rankingNeighbors (allSongs : List SongWithStats) (activeSongId : String) :
    List NeighborSong :=
  let sortedAllSongs := sortSongs allSongs
  match sortedAllSongs.findIdx? (fun s => s.id == activeSongId) with
  | none => []
  | some currentIndex =>
    let total := sortedAllSongs.length
    let windowSize : Int := 5
    let start0 : Int := (currentIndex : Int) - 2
    let end0 : Int := start0 + windowSize
    let se : Int × Int :=
      if start0 < 0 then (0, min (total : Int) windowSize)
      else if end0 > (total : Int) then (max 0 ((total : Int) - windowSize), (total : Int))
      else (start0, end0)
    let start := se.1.toNat
    let stop := se.2.toNat
    ((sortedAllSongs.drop start).take (stop - start)).mapIdx (fun i s =>
      { toSongWithStats := s
        absoluteRank := start + i + 1
        isCurrent := s.id == activeSongId })

/-! ## Concrete test data -/

/-- Helper building a stats-annotated song with the given id, total and
dimension scores (used only in the concrete evaluations below). -/
def mkSW (id : String) (total lyr comp arr : ℚ) : SongWithStats :=
  { id := id
    title := id
    scores := ⟨lyr, comp, arr⟩
    totalScore := total
    albumId := "alb"
    albumName := "Album"
    albumYear := "2020" }

/-- Song A of the tie-break example: total `7.000`, composition `8`. -/
def c1A : SongWithStats := mkSW "A" 7 0 8 0

/-- Song B of the tie-break example: total `7.0005`, composition `5`. -/
def c1B : SongWithStats := mkSW "B" 7.0005 0 5 0

/-- A fully tied pair member: total `7.0000`, composition `5`. -/
def c1a : SongWithStats := mkSW "a" 7 0 5 0

/-- The other fully tied pair member: total `7.0009`, composition `5`. -/
def c1b : SongWithStats := mkSW "b" 7.0009 0 5 0

/-- The third song making the `0.001` window intransitive: total `7.0015`,
composition `4`. -/
def c1x : SongWithStats := mkSW "x" 7.0015 0 4 0

/-- C7 pair member: total `7.0000`, composition `5.0005`. -/
def c7a : SongWithStats := mkSW "a" 7 0 5.0005 0

/-- C7 pair member: total `7.0009`, composition `5.0`. -/
def c7b : SongWithStats := mkSW "b" 7.0009 0 5 0

/-- C7 third song: total `7.0015`, composition `4`. -/
def c7m : SongWithStats := mkSW "m" 7.0015 0 4 0

/-- A concrete two-song album. -/
def c2album : Album :=
  { id := "al"
    title := "Alpha"
    year := "2020"
    songs :=
      [ { id := "s1", title := "SongOne", scores := ⟨9, 9, 9⟩ },
        { id := "s2", title := "SongTwo", scores := ⟨3, 3, 3⟩ } ] }

/-- A concrete singer owning `c2album`. -/
def c2singer : Singer := { id := "sg", name := "Singer", albums := [c2album] }

/-- The window start described by the specification: `i - 2` clamped into
`[0, n - windowSize]` (which collapses to `0`, the whole list, when
`n < 5`). -/
def windowStart (i n : Nat) : Nat :=
  (max 0 (min ((i : Int) - 2) ((n : Int) - 5))).toNat

/-- First song of the three-song neighborhood catalog (total `9`). -/
def c5s1 : SongWithStats := mkSW "n1" 9 0 0 0

/-- Second song of the three-song neighborhood catalog (total `8`). -/
def c5s2 : SongWithStats := mkSW "n2" 8 0 0 0

/-- Third song of the three-song neighborhood catalog (total `7`). -/
def c5s3 : SongWithStats := mkSW "n3" 7 0 0 0

/-- A catalog song titled `"Yes"`. -/
def c6yes : Song := { id := "y1", title := "Yes", scores := ⟨0, 0, 0⟩ }

/-- A catalog song titled `"Yesterday"`. -/
def c6yesterday : Song := { id := "y2", title := "Yesterday", scores := ⟨0, 0, 0⟩ }

/-- A catalog song titled `"Track Two"`. -/
def c6track : Song := { id := "t1", title := "Track Two", scores := ⟨0, 0, 0⟩ }

/-- The observable outcome of one candidate file in a scan: `some (songId,
mediaType)` when the file is classified, matched and successfully persisted,
`none` otherwise (skipped, unmatched, or failed persistence).  Mirrors the
decision structure of `matchAndPersist`. -/
def fileOutcome (persistOk : String → MediaType → String → Bool)
    (songs : List Song) (f : String) : Option (String × MediaType) :=
  let isAudio := isAudioFile f
  let isLrc := isLrcFile f
  if !isAudio && !isLrc then none
  else
    match findMatchedSong songs f with
    | none => none
    | some s =>
      let type := if isAudio then MediaType.audio else MediaType.lrc
      if persistOk s.id type f then some (s.id, type) else none

/-- Whether a file outcome is a successful persistence of the given media
type. -/
def outcomeIs (t : MediaType) (o : Option (String × MediaType)) : Bool :=
  match o with
  | some (_, t2) => decide (t2 = t)
  | none => false

/-- Song `"Alpha"` of the scan example. -/
def c8alpha : Song := { id := "a1", title := "Alpha", scores := ⟨0, 0, 0⟩ }

/-- Song `"Beta"` of the scan example. -/
def c8beta : Song := { id := "b1", title := "Beta", scores := ⟨0, 0, 0⟩ }

/-- The persistence capability of the scan example: persisting
`"alpha.mp3"` fails, everything else succeeds. -/
def c8persist : String → MediaType → String → Bool :=
  fun _ _ f => !(f == "alpha.mp3")

end MuseMetric

/-! # Theorems -/

namespace MuseMetric

/-! ## Generic helpers about the stable merge sort -/

/-- Merge sort of a two-element list, unfolded. -/
theorem mergeSort_two {α : Type} (le : α → α → Bool) (a b : α) :
    List.mergeSort [a, b] le = if le a b then [a, b] else [b, a] := by
  rw [List.mergeSort]
  simp [List.splitInTwo, List.splitAt, List.splitAt.go, List.mergeSort, List.merge]

/-- Merge sort of a three-element list, reduced to a two-element sort and a
merge. -/
theorem mergeSort_three {α : Type} (le : α → α → Bool) (a b c : α) :
    List.mergeSort [a, b, c] le = (List.mergeSort [a, b] le).merge [c] le := by
  rw [List.mergeSort]
  simp [List.splitInTwo, List.splitAt, List.splitAt.go]

/-- Stability of the merge sort for a comparator that is transitive on the
members of the list being sorted (global transitivity is not required): a
pair in `le`-order that is a sublist of the input stays a sublist of the
output.  Proved by transporting `List.pair_sublist_mergeSort` along the
subtype of members of `l`. -/
theorem pair_sublist_mergeSort_of_trans_on {α : Type} (le : α → α → Bool) (l : List α)
    (trans : ∀ x ∈ l, ∀ y ∈ l, ∀ z ∈ l, le x y = true → le y z = true → le x z = true)
    (total : ∀ a b : α, (le a b || le b a) = true)
    {a b : α} (hab : le a b = true) (hsub : List.Sublist [a, b] l) :
    List.Sublist [a, b] (l.mergeSort le) := by
  classical
  have hmap : List.map Subtype.val (l.attach.mergeSort (fun x y => le x.1 y.1)) =
      l.mergeSort le := by
    rw [@List.map_mergeSort _ _ (fun x y => le x.1 y.1) le Subtype.val l.attach
      (fun x _ y _ => rfl), List.attach_map_subtype_val]
  have hsub' : List.Sublist [a, b] (List.map Subtype.val l.attach) := by
    rwa [List.attach_map_subtype_val]
  obtain ⟨l', hl', heq⟩ := List.sublist_map_iff.mp hsub'
  match l', heq, hl' with
  | [x, y], heq, hl' =>
    obtain ⟨hx, hy⟩ : a = x.1 ∧ b = y.1 := by simpa using heq
    have h2 : List.Sublist [x, y] (l.attach.mergeSort (fun x y => le x.1 y.1)) := by
      refine List.pair_sublist_mergeSort ?_ ?_ ?_ hl'
      · exact fun p q r hpq hqr => trans p.1 p.2 q.1 q.2 r.1 r.2 hpq hqr
      · exact fun p q => total p.1 q.1
      · rw [← hx, ← hy]; exact hab
    have h3 := h2.map Subtype.val
    rw [hmap] at h3
    simpa [← hx, ← hy] using h3

/-- A two-element sublist locates its elements at increasing indices. -/
theorem sublist_pair_getElem {α : Type} {u v : α} {l : List α}
    (h : List.Sublist [u, v] l) :
    ∃ i j, ∃ (hi : i < l.length) (hj : j < l.length),
      i < j ∧ l.get ⟨i, hi⟩ = u ∧ l.get ⟨j, hj⟩ = v := by
  induction l with
  | nil => exact absurd (List.sublist_nil.mp h) (by simp)
  | cons c t ih =>
    cases h with
    | cons _ h' =>
      obtain ⟨i, j, hi, hj, hij, hu, hv⟩ := ih h'
      exact ⟨i + 1, j + 1, by simpa using hi, by simpa using hj, by omega, hu, hv⟩
    | cons₂ _ h' =>
      have hvmem : v ∈ t := (List.singleton_sublist).mp h'
      obtain ⟨j, hj, hv⟩ := List.mem_iff_getElem.mp hvmem
      exact ⟨0, j + 1, by simp, by simpa using hj, by omega, rfl, hv⟩

/-! ## The core comparator -/

/-- The comparator is antisymmetric as a numeric function. -/
theorem sortSongsAlgorithm_antisymm (a b : SongWithStats) :
    sortSongsAlgorithm b a = -sortSongsAlgorithm a b := by
  simp only [sortSongsAlgorithm]
  rw [abs_sub_comm a.totalScore b.totalScore]
  split_ifs <;> ring

/-- The boolean lift of the comparator is total. -/
theorem songLe_total (a b : SongWithStats) : (songLe a b || songLe b a) = true := by
  simp only [songLe, Bool.or_eq_true, decide_eq_true_eq, sortSongsAlgorithm_antisymm a b]
  rcases le_total (sortSongsAlgorithm a b) 0 with h | h
  · exact Or.inl h
  · exact Or.inr (by linarith)

/-- Within the tie window the comparator is the descending composition
comparison. -/
theorem sortSongsAlgorithm_of_tie {a b : SongWithStats}
    (h : |b.totalScore - a.totalScore| < 0.001) :
    sortSongsAlgorithm a b = b.scores.composition - a.scores.composition := by
  simp only [sortSongsAlgorithm]
  rw [if_pos h]

/-- Outside the tie window the comparator is the descending total comparison. -/
theorem sortSongsAlgorithm_of_sig {a b : SongWithStats}
    (h : ¬ |b.totalScore - a.totalScore| < 0.001) :
    sortSongsAlgorithm a b = b.totalScore - a.totalScore := by
  simp only [sortSongsAlgorithm]
  rw [if_neg h]

/-! ## Concrete comparator evaluations for the intransitivity example -/

/-- The pair `(c1a, c1b)` is fully tied: both totals within the window and
equal compositions. -/
theorem sortSongsAlgorithm_c1a_c1b : sortSongsAlgorithm c1a c1b = 0 := by
  norm_num [sortSongsAlgorithm, c1a, c1b, mkSW, abs_lt]

/-- The totals of `c1x` and `c1a` differ by `0.0015`, so `c1x` (higher total)
sorts strictly before `c1a`. -/
theorem songLe_c1x_c1a : songLe c1x c1a = true := by
  norm_num [songLe, sortSongsAlgorithm, c1x, c1a, mkSW, abs_lt]

/-- The totals of `c1x` and `c1b` are tied within the window, so composition
decides: `c1b` (composition 5) sorts strictly before `c1x` (composition 4). -/
theorem songLe_c1x_c1b : songLe c1x c1b = false := by
  norm_num [songLe, sortSongsAlgorithm, c1x, c1b, mkSW, abs_lt]

/-- Counterpart of `songLe_c1x_c1a`. -/
theorem songLe_c1a_c1x : songLe c1a c1x = false := by
  norm_num [songLe, sortSongsAlgorithm, c1a, c1x, mkSW, abs_lt]

/-- The stable merge sort on `[c1x, c1a, c1b]` produces `[c1b, c1x, c1a]`,
moving `c1b` in front of the fully tied `c1a`. -/
theorem sortSongs_c1_eval : sortSongs [c1x, c1a, c1b] = [c1b, c1x, c1a] := by
  rw [sortSongs, mergeSort_three, mergeSort_two, if_pos songLe_c1x_c1a]
  simp [List.merge, songLe_c1x_c1b]

/-- No comparator-sorted arrangement of the three songs keeps the tied pair
in encounter order: the strict comparisons `c1b` before `c1x` before `c1a`
force the tied pair to be reversed, independently of the sorting algorithm. -/
theorem c1_no_sorted_order_preserves_pair (out : List SongWithStats)
    (hperm : out.Perm [c1x, c1a, c1b])
    (hsort : out.Pairwise (fun p q => songLe p q = true)) :
    ¬ List.Sublist [c1a, c1b] out := by
  intro hsub
  obtain ⟨i, j, hi, hj, hij, hia, hjb⟩ := sublist_pair_getElem hsub
  have hxmem : c1x ∈ out := hperm.mem_iff.mpr (by simp)
  obtain ⟨k, hk, hkx⟩ := List.mem_iff_getElem.mp hxmem
  have hP := List.pairwise_iff_getElem.mp hsort
  have hax : c1a ≠ c1x := by simp [c1a, c1x, mkSW]
  have hki : k < i := by
    rcases Nat.lt_trichotomy i k with h | h | h
    · have := hP i k hi hk h
      rw [List.get_eq_getElem] at hia
      rw [hia, hkx] at this
      exact absurd this (by rw [songLe_c1a_c1x]; simp)
    · subst h
      rw [List.get_eq_getElem] at hia
      exact absurd (hia.symm.trans hkx) hax
    · exact h
  have := hP k j hk hj (lt_trans hki hij)
  rw [List.get_eq_getElem] at hjb
  rw [hkx, hjb] at this
  exact absurd this (by rw [songLe_c1x_c1b]; simp)

/-- C1 (counterexample).  The claim asserts that pairs still tied after the
composition tie-break retain their encounter order under the stable sort.
At the concrete input `[c1x, c1a, c1b]` the pair `(c1a, c1b)` is fully tied
(comparator value `0`) and appears in this encounter order, yet the stable
merge sort returns `[c1b, c1x, c1a]`, in which the pair is reversed: the
`0.001` window makes the comparator intransitive here (`c1b` strictly before
`c1x`, `c1x` strictly before `c1a`), so no comparator-sorted order could keep
the tied pair (see `c1_no_sorted_order_preserves_pair`). -/
theorem C1_counterexample :
    sortSongsAlgorithm c1a c1b = 0 ∧
    List.Sublist [c1a, c1b] [c1x, c1a, c1b] ∧
    sortSongs [c1x, c1a, c1b] = [c1b, c1x, c1a] ∧
    ¬ List.Sublist [c1a, c1b] (sortSongs [c1x, c1a, c1b]) := by
  refine ⟨sortSongsAlgorithm_c1a_c1b, List.Sublist.cons c1x (List.Sublist.refl _), sortSongs_c1_eval, ?_⟩
  rw [sortSongs_c1_eval]
  intro h
  have hids := h.map (fun s => s.id)
  simp only [c1a, c1b, c1x, mkSW, List.map] at hids
  exact absurd hids (by decide)

/-- C1 (amended).  The core comparator treats a total-score difference
smaller than `0.001` as a tie and then compares composition descending,
otherwise compares total descending; for A (total `7.000`, composition `8`)
and B (total `7.0005`, composition `5`) the pair is tied on total and A is
ordered above B by the composition tie-break, even when encountered after B.
Pairs still tied after the composition tie-break retain their encounter
order under the stable sort *provided* the lifted comparator is transitive
on the list being sorted; this proviso is forced by the counterexample,
where the `0.001` window is intransitive across three songs. -/
theorem C1_amended :
    (∀ a b : SongWithStats, |b.totalScore - a.totalScore| < 0.001 →
      sortSongsAlgorithm a b = b.scores.composition - a.scores.composition) ∧
    (∀ a b : SongWithStats, ¬ |b.totalScore - a.totalScore| < 0.001 →
      sortSongsAlgorithm a b = b.totalScore - a.totalScore) ∧
    (∀ (l : List SongWithStats) (a b : SongWithStats),
      (∀ x ∈ l, ∀ y ∈ l, ∀ z ∈ l,
        songLe x y = true → songLe y z = true → songLe x z = true) →
      sortSongsAlgorithm a b = 0 → List.Sublist [a, b] l →
      List.Sublist [a, b] (sortSongs l)) ∧
    (|c1B.totalScore - c1A.totalScore| < 0.001 ∧
      sortSongsAlgorithm c1A c1B < 0 ∧
      sortSongs [c1B, c1A] = [c1A, c1B]) := by
  refine ⟨?_, ?_, ?_, ?_, ?_, ?_⟩
  · exact fun a b h => sortSongsAlgorithm_of_tie h
  · exact fun a b h => sortSongsAlgorithm_of_sig h
  · intro l a b htrans htie hsub
    refine pair_sublist_mergeSort_of_trans_on songLe l htrans songLe_total ?_ hsub
    simp [songLe, htie]
  · norm_num [c1A, c1B, mkSW, abs_lt]
  · norm_num [sortSongsAlgorithm, c1A, c1B, mkSW, abs_lt]
  · have hBA : songLe c1B c1A = false := by
      norm_num [songLe, sortSongsAlgorithm, c1A, c1B, mkSW, abs_lt]
    rw [sortSongs, mergeSort_two, if_neg (by simp [hBA])]

/-- Witness for `C1_amended` at concrete inputs: the tie branch at the A/B
pair, and tied-pair stability on the two-element list `[c1a, c1b]`. -/
theorem C1_amended_witness :
    sortSongsAlgorithm c1A c1B = c1B.scores.composition - c1A.scores.composition ∧
    List.Sublist [c1a, c1b] (sortSongs [c1a, c1b]) := by
  have h := C1_amended
  constructor
  · exact h.1 c1A c1B (by norm_num [c1A, c1B, mkSW, abs_lt])
  · have haa : songLe c1a c1a = true := by
      norm_num [songLe, sortSongsAlgorithm, c1a, mkSW, abs_lt]
    have hbb : songLe c1b c1b = true := by
      norm_num [songLe, sortSongsAlgorithm, c1b, mkSW, abs_lt]
    have hab : songLe c1a c1b = true := by
      norm_num [songLe, sortSongsAlgorithm, c1a, c1b, mkSW, abs_lt]
    have hba : songLe c1b c1a = true := by
      norm_num [songLe, sortSongsAlgorithm, c1a, c1b, mkSW, abs_lt]
    refine h.2.2.1 [c1a, c1b] c1a c1b ?_ sortSongsAlgorithm_c1a_c1b (List.Sublist.refl _)
    intro x hx y hy z hz
    fin_cases hx <;> fin_cases hy <;> fin_cases hz <;>
      simp [haa, hbb, hab, hba]

end MuseMetric

namespace MuseMetric

/-! ## C2 — the countdown builder -/

/-- C2.  The countdown builder returns as many entries as there are songs;
the entry at position `j` carries rank `totalSongs - j`, so the first entry
has rank `totalSongs`, the last has rank `1`, and the reversal changes no
assigned rank; a singer with no songs yields the empty sequence. -/
theorem C2_getPresentationSongs_countdown (singer : Singer) :
    (getPresentationSongs singer).length = (enrichSingerData singer).allSongs.length ∧
    (∀ j (hj : j < (getPresentationSongs singer).length),
      ((getPresentationSongs singer).get ⟨j, hj⟩).rank =
        (enrichSingerData singer).allSongs.length - j) ∧
    ((enrichSingerData singer).allSongs = [] → getPresentationSongs singer = []) ∧
    ((enrichSingerData singer).allSongs ≠ [] →
      ((getPresentationSongs singer).head?.map (fun s => s.rank) =
          some (enrichSingerData singer).allSongs.length ∧
        (getPresentationSongs singer).getLast?.map (fun s => s.rank) = some 1)) := by
  have hlen : (getPresentationSongs singer).length =
      (enrichSingerData singer).allSongs.length := by
    simp [getPresentationSongs, sortSongs]
  have hget : ∀ j (hj : j < (getPresentationSongs singer).length),
      ((getPresentationSongs singer).get ⟨j, hj⟩).rank =
        (enrichSingerData singer).allSongs.length - j := by
    intro j hj
    have hj' : j < (enrichSingerData singer).allSongs.length := by rwa [hlen] at hj
    simp only [getPresentationSongs, List.get_eq_getElem] at hj ⊢
    rw [List.getElem_reverse, List.getElem_mapIdx]
    simp only [List.length_mapIdx, sortSongs, List.length_mergeSort] at hj ⊢
    omega
  refine ⟨hlen, hget, ?_, ?_⟩
  · intro h
    simp [getPresentationSongs, sortSongs, h]
  · intro hne
    have hpos : 0 < (getPresentationSongs singer).length := by
      rw [hlen]
      exact List.length_pos.mpr hne
    constructor
    · rw [List.head?_eq_getElem?, List.getElem?_eq_getElem hpos]
      have := hget 0 hpos
      simp only [List.get_eq_getElem] at this
      simp [this]
    · rw [List.getLast?_eq_getElem?,
        List.getElem?_eq_getElem (by omega : (getPresentationSongs singer).length - 1 <
          (getPresentationSongs singer).length)]
      have hlast := hget ((getPresentationSongs singer).length - 1) (by omega)
      simp only [List.get_eq_getElem] at hlast
      have hn0 : (enrichSingerData singer).allSongs.length ≠ 0 := by
        intro h
        exact hne (List.length_eq_zero.mp h)
      simp only [Option.map_some', Option.some.injEq]
      rw [hlast]
      omega

end MuseMetric

namespace MuseMetric

/-- Witness for `C2_getPresentationSongs_countdown` on a concrete two-song
singer: the countdown starts at rank `2` and ends at rank `1`. -/
theorem C2_witness :
    (getPresentationSongs c2singer).head?.map (fun s => s.rank) = some 2 ∧
    (getPresentationSongs c2singer).getLast?.map (fun s => s.rank) = some 1 := by
  have h := C2_getPresentationSongs_countdown c2singer
  have hne : (enrichSingerData c2singer).allSongs ≠ [] := by
    simp [enrichSingerData, c2singer, c2album]
  have hlen : (enrichSingerData c2singer).allSongs.length = 2 := by
    simp [enrichSingerData, c2singer, c2album]
  obtain ⟨h1, h2⟩ := h.2.2.2 hne
  rw [hlen] at h1
  exact ⟨h1, h2⟩

/-! ## C10 — album average identity -/

/-- The running total-score accumulation equals a third of the sum of the
three dimension accumulations, for compatible starting accumulators. -/
theorem foldl_total_eq (songs : List Song) :
    ∀ aT aL aC aA : ℚ, aT = (aL + aC + aA) / 3 →
      songs.foldl (fun acc song =>
          acc + calculateSongTotal song.scores.lyrics song.scores.composition
            song.scores.arrangement) aT
        = (songs.foldl (fun acc song => acc + song.scores.lyrics) aL
            + songs.foldl (fun acc song => acc + song.scores.composition) aC
            + songs.foldl (fun acc song => acc + song.scores.arrangement) aA) / 3 := by
  induction songs with
  | nil => intro aT aL aC aA h; simpa using h
  | cons s t ih =>
    intro aT aL aC aA h
    simp only [List.foldl_cons]
    exact ih _ _ _ _ (by rw [h, calculateSongTotal]; ring)

/-- C10.  Every enriched album satisfies
`averageTotal = (averageLyrics + averageComposition + averageArrangement) / 3`
exactly, and an album with no songs gets `0` for all four averages. -/
theorem C10_enrich_average_identity (singer : Singer) :
    ∀ a ∈ (enrichSingerData singer).albumsWithStats,
      a.averageTotal =
        (a.averageLyrics + a.averageComposition + a.averageArrangement) / 3 ∧
      (a.songs = [] →
        a.averageTotal = 0 ∧ a.averageLyrics = 0 ∧ a.averageComposition = 0 ∧
          a.averageArrangement = 0) := by
  intro a ha
  simp only [enrichSingerData, List.mem_map] at ha
  obtain ⟨album, -, rfl⟩ := ha
  constructor
  · by_cases h0 : album.songs.length = 0
    · simp [enrichAlbum, h0]
    · simp only [enrichAlbum, if_neg h0]
      rw [foldl_total_eq album.songs 0 0 0 0 (by norm_num)]
      have hn : (album.songs.length : ℚ) ≠ 0 := Nat.cast_ne_zero.mpr h0
      field_simp
      left
      ring
  · intro hs
    have h0 : album.songs.length = 0 := by
      have : album.songs = [] := by simpa [enrichAlbum] using hs
      simp [this]
    simp [enrichAlbum, h0]

/-- Witness for `C10_enrich_average_identity` at the concrete singer. -/
theorem C10_witness :
    (enrichAlbum c2album).averageTotal =
      ((enrichAlbum c2album).averageLyrics + (enrichAlbum c2album).averageComposition +
        (enrichAlbum c2album).averageArrangement) / 3 ∧
    ((enrichAlbum c2album).songs = [] →
      (enrichAlbum c2album).averageTotal = 0 ∧ (enrichAlbum c2album).averageLyrics = 0 ∧
        (enrichAlbum c2album).averageComposition = 0 ∧
        (enrichAlbum c2album).averageArrangement = 0) :=
  C10_enrich_average_identity c2singer (enrichAlbum c2album)
    (by simp [enrichSingerData, c2singer])

end MuseMetric

namespace MuseMetric

/-- The cue-time comparator lift used by `parseLrc` is transitive. -/
theorem lrcLe_trans (a b c : LrcLine)
    (hab : decide (a.time - b.time ≤ 0) = true)
    (hbc : decide (b.time - c.time ≤ 0) = true) :
    decide (a.time - c.time ≤ 0) = true := by
  simp only [decide_eq_true_eq] at *
  linarith

/-- The cue-time comparator lift used by `parseLrc` is total. -/
theorem lrcLe_total (a b : LrcLine) :
    (decide (a.time - b.time ≤ 0) || decide (b.time - a.time ≤ 0)) = true := by
  simp only [Bool.or_eq_true, decide_eq_true_eq]
  rcases le_total a.time b.time with h | h
  · exact Or.inl (by linarith)
  · exact Or.inr (by linarith)

/-- C4.  The lyric parser returns cues sorted ascending by time for every
input; the cue list is a permutation of the per-line extraction in input
order (one cue exactly per line that begins with a well-formed timestamp tag
and has non-blank trailing text); the time conversion uses hundredths for a
two-digit fractional field (`.50` is half a second) and thousandths for a
three-digit field; blank-text lines, and lines not beginning with a tag,
produce no cue and no failure. -/
theorem C4_parseLrc :
    (∀ content : String, (parseLrc content).Pairwise (fun a b => a.time ≤ b.time)) ∧
    (∀ content : String,
      (parseLrc content).Perm
        (((splitLines content.toList).map String.mk).filterMap lrcCue)) ∧
    parseLrc "[00:12.50]Hello\n[00:05.00]World" = [⟨5, "World"⟩, ⟨12.5, "Hello"⟩] ∧
    parseLrc "[00:10.000]   " = [] ∧
    parseLrc "no tag [00:10.00]x" = [] ∧
    parseLrc "[00:10.123]abc" = [⟨10.123, "abc"⟩] := by
  refine ⟨?_, ?_, ?_, ?_, ?_, ?_⟩
  · intro content
    have h := List.sorted_mergeSort lrcLe_trans lrcLe_total
      ((((splitLines content.toList)).map String.mk).filterMap lrcCue)
    rw [parseLrc]
    exact h.imp (fun hab => by
      have := decide_eq_true_eq.mp hab
      linarith)
  · intro content
    exact List.mergeSort_perm _ _
  · have h1 : lrcCue "[00:12.50]Hello" = some ⟨12.5, "Hello"⟩ := by
      rw [lrcCue]
      norm_num [show lrcFrac3 ['5', '0', ']', 'H', 'e', 'l', 'l', 'o'] = none from by decide,
        show lrcFrac2 ['5', '0', ']', 'H', 'e', 'l', 'l', 'o'] =
          some (50, ['H', 'e', 'l', 'l', 'o']) from by decide,
        show trimChars ['H', 'e', 'l', 'l', 'o'] = ['H', 'e', 'l', 'l', 'o'] from by decide,
        show ('0' : Char).isDigit = true from by decide,
        show ('1' : Char).isDigit = true from by decide,
        show ('2' : Char).isDigit = true from by decide,
        show digitVal '0' = 0 from by decide, show digitVal '1' = 1 from by decide,
        show digitVal '2' = 2 from by decide,
        show String.mk ['H', 'e', 'l', 'l', 'o'] = "Hello" from rfl]
    have h2 : lrcCue "[00:05.00]World" = some ⟨5, "World"⟩ := by
      rw [lrcCue]
      norm_num [show lrcFrac3 ['0', '0', ']', 'W', 'o', 'r', 'l', 'd'] = none from by decide,
        show lrcFrac2 ['0', '0', ']', 'W', 'o', 'r', 'l', 'd'] =
          some (0, ['W', 'o', 'r', 'l', 'd']) from by decide,
        show trimChars ['W', 'o', 'r', 'l', 'd'] = ['W', 'o', 'r', 'l', 'd'] from by decide,
        show ('0' : Char).isDigit = true from by decide,
        show ('5' : Char).isDigit = true from by decide,
        show digitVal '0' = 0 from by decide, show digitVal '5' = 5 from by decide,
        show String.mk ['W', 'o', 'r', 'l', 'd'] = "World" from rfl]
    have hsplit : splitLines ("[00:12.50]Hello\n[00:05.00]World".toList) =
        ["[00:12.50]Hello".toList, "[00:05.00]World".toList] := by decide
    rw [parseLrc, hsplit]
    simp only [List.map, List.filterMap]
    rw [show String.mk ("[00:12.50]Hello".toList) = "[00:12.50]Hello" from rfl,
      show String.mk ("[00:05.00]World".toList) = "[00:05.00]World" from rfl, h1, h2]
    simp only [List.filterMap_nil]
    rw [mergeSort_two]
    norm_num
  · have h1 : lrcCue "[00:10.000]   " = none := rfl
    have hsplit : splitLines ("[00:10.000]   ".toList) = ["[00:10.000]   ".toList] := by
      decide
    rw [parseLrc, hsplit]
    simp only [List.map, List.filterMap]
    rw [show String.mk ("[00:10.000]   ".toList) = "[00:10.000]   " from rfl, h1]
    simp
  · have h1 : lrcCue "no tag [00:10.00]x" = none := rfl
    have hsplit : splitLines ("no tag [00:10.00]x".toList) =
        ["no tag [00:10.00]x".toList] := by decide
    rw [parseLrc, hsplit]
    simp only [List.map, List.filterMap]
    rw [show String.mk ("no tag [00:10.00]x".toList) = "no tag [00:10.00]x" from rfl, h1]
    simp
  · have h1 : lrcCue "[00:10.123]abc" = some ⟨10.123, "abc"⟩ := by
      rw [lrcCue]
      norm_num [show lrcFrac3 ['1', '2', '3', ']', 'a', 'b', 'c'] =
          some (123, ['a', 'b', 'c']) from by decide,
        show trimChars ['a', 'b', 'c'] = ['a', 'b', 'c'] from by decide,
        show ('0' : Char).isDigit = true from by decide,
        show ('1' : Char).isDigit = true from by decide,
        show digitVal '0' = 0 from by decide, show digitVal '1' = 1 from by decide,
        show String.mk ['a', 'b', 'c'] = "abc" from rfl]
    have hsplit : splitLines ("[00:10.123]abc".toList) = ["[00:10.123]abc".toList] := by
      decide
    rw [parseLrc, hsplit]
    simp only [List.map, List.filterMap]
    rw [show String.mk ("[00:10.123]abc".toList) = "[00:10.123]abc" from rfl, h1]
    simp [List.mergeSort]

end MuseMetric

namespace MuseMetric

/-- The branchy start/end computation of `rankingNeighbors` equals the
specification's clamp formula: the returned list is the window of
`min n 5` songs starting at `windowStart i n` of the sorted list, each
tagged with its absolute rank and the focal marker. -/
theorem rankingNeighbors_eq_window (allSongs : List SongWithStats)
    (activeSongId : String) (i : Nat)
    (hfind : (sortSongs allSongs).findIdx? (fun s => s.id == activeSongId) = some i) :
    rankingNeighbors allSongs activeSongId =
      (((sortSongs allSongs).drop (windowStart i allSongs.length)).take
          (min allSongs.length 5)).mapIdx (fun j s =>
        { toSongWithStats := s
          absoluteRank := windowStart i allSongs.length + j + 1
          isCurrent := s.id == activeSongId }) := by
  have hn : (sortSongs allSongs).length = allSongs.length := by
    simp [sortSongs]
  have hi : i < allSongs.length := by
    have := (List.findIdx?_eq_some_iff_findIdx_eq.mp hfind).1
    rwa [hn] at this
  simp only [rankingNeighbors, hfind, hn]
  split_ifs with h1 h2
  · have e1 : ((0 : Int), min (allSongs.length : Int) 5).1.toNat =
        windowStart i allSongs.length := by
      simp only [windowStart]
      omega
    have e2 : ((0 : Int), min (allSongs.length : Int) 5).2.toNat -
        windowStart i allSongs.length = min allSongs.length 5 := by
      simp only [windowStart]
      omega
    rw [e1, e2]
  · have e1 : (max 0 ((allSongs.length : Int) - 5), (allSongs.length : Int)).1.toNat =
        windowStart i allSongs.length := by
      simp only [windowStart]
      omega
    have e2 : (max 0 ((allSongs.length : Int) - 5), (allSongs.length : Int)).2.toNat -
        windowStart i allSongs.length = min allSongs.length 5 := by
      simp only [windowStart]
      omega
    rw [e1, e2]
  · have e1 : ((i : Int) - 2, (i : Int) - 2 + 5).1.toNat = windowStart i allSongs.length := by
      simp only [windowStart]
      omega
    have e2 : ((i : Int) - 2, (i : Int) - 2 + 5).2.toNat -
        windowStart i allSongs.length = min allSongs.length 5 := by
      simp only [windowStart]
      omega
    rw [e1, e2]

end MuseMetric

namespace MuseMetric

/-- C5.  When the focal song is found at index `i` of the globally sorted
list, the neighborhood query returns the contiguous slice of `min n 5` songs
starting at `i - 2` clamped into `[0, n - 5]` (the whole list when `n < 5`);
each entry is tagged with absolute one-based rank `start + offset + 1`, and
— when song ids are unique — the focal marker is true exactly at the focal
song's window position. -/
theorem C5_rankingNeighbors_window (allSongs : List SongWithStats)
    (activeSongId : String) (i : Nat)
    (hfind : (sortSongs allSongs).findIdx? (fun s => s.id == activeSongId) = some i) :
    (rankingNeighbors allSongs activeSongId).length = min allSongs.length 5 ∧
    rankingNeighbors allSongs activeSongId =
      (((sortSongs allSongs).drop (windowStart i allSongs.length)).take
          (min allSongs.length 5)).mapIdx (fun j s =>
        { toSongWithStats := s
          absoluteRank := windowStart i allSongs.length + j + 1
          isCurrent := s.id == activeSongId }) ∧
    (∀ j (hj : j < (rankingNeighbors allSongs activeSongId).length),
      ((rankingNeighbors allSongs activeSongId).get ⟨j, hj⟩).absoluteRank =
        windowStart i allSongs.length + j + 1) ∧
    ((allSongs.map (fun s => s.id)).Nodup →
      ∀ j (hj : j < (rankingNeighbors allSongs activeSongId).length),
        (((rankingNeighbors allSongs activeSongId).get ⟨j, hj⟩).isCurrent = true ↔
          windowStart i allSongs.length + j = i)) := by
  have hn : (sortSongs allSongs).length = allSongs.length := by simp [sortSongs]
  obtain ⟨hilt, hpi, -⟩ := List.findIdx?_eq_some_iff_getElem.mp hfind
  have hi : i < allSongs.length := by rwa [hn] at hilt
  have hw : windowStart i allSongs.length + min allSongs.length 5 ≤ allSongs.length := by
    simp only [windowStart]
    omega
  have heq := rankingNeighbors_eq_window allSongs activeSongId i hfind
  have hlen : (rankingNeighbors allSongs activeSongId).length = min allSongs.length 5 := by
    rw [heq]
    simp only [List.length_mapIdx, List.length_take, List.length_drop, hn]
    omega
  have hgetw : ∀ j (hj : j < (rankingNeighbors allSongs activeSongId).length),
      ∃ (hjn : windowStart i allSongs.length + j < (sortSongs allSongs).length),
        (rankingNeighbors allSongs activeSongId).get ⟨j, hj⟩ =
          { toSongWithStats := (sortSongs allSongs).get
              ⟨windowStart i allSongs.length + j, hjn⟩
            absoluteRank := windowStart i allSongs.length + j + 1
            isCurrent := ((sortSongs allSongs).get
              ⟨windowStart i allSongs.length + j, hjn⟩).id == activeSongId } := by
    intro j hj
    have hj5 : j < min allSongs.length 5 := by rwa [hlen] at hj
    have hjn : windowStart i allSongs.length + j < (sortSongs allSongs).length := by
      rw [hn]; omega
    refine ⟨hjn, ?_⟩
    simp only [List.get_eq_getElem]
    rw [List.getElem_of_eq heq hj, List.getElem_mapIdx]
    congr 1 <;> rw [List.getElem_take, List.getElem_drop]
  refine ⟨hlen, heq, ?_, ?_⟩
  · intro j hj
    obtain ⟨hjn, hval⟩ := hgetw j hj
    rw [hval]
  · intro hnodup j hj
    obtain ⟨hjn, hval⟩ := hgetw j hj
    rw [hval]
    simp only [beq_iff_eq]
    have hip : ((sortSongs allSongs).get ⟨i, hilt⟩).id = activeSongId := by
      simp only [List.get_eq_getElem]
      simpa using hpi
    have hnodup2 : ((sortSongs allSongs).map (fun s => s.id)).Nodup := by
      have hperm := (List.mergeSort_perm allSongs songLe).map (fun s => s.id)
      exact (hperm.nodup_iff).mpr hnodup
    simp only [List.get_eq_getElem] at hip ⊢
    constructor
    · intro hcur
      have hjn2 : windowStart i allSongs.length + j <
          ((sortSongs allSongs).map (fun s => s.id)).length := by simpa using hjn
      have hilt2 : i < ((sortSongs allSongs).map (fun s => s.id)).length := by
        simpa using hilt
      have hidx : ((sortSongs allSongs).map (fun s => s.id))[windowStart i allSongs.length + j] =
          ((sortSongs allSongs).map (fun s => s.id))[i] := by
        rw [List.getElem_map, List.getElem_map, hcur, hip]
      exact (hnodup2.getElem_inj_iff).mp hidx
    · intro hji
      have h1 : (sortSongs allSongs)[windowStart i allSongs.length + j]? =
          (sortSongs allSongs)[i]? := by rw [hji]
      rw [List.getElem?_eq_getElem hjn, List.getElem?_eq_getElem hilt] at h1
      rw [Option.some.inj h1]
      exact hip

end MuseMetric

namespace MuseMetric

/-- Witness for `C5_rankingNeighbors_window`: a catalog of three songs with
focal song `"n2"` yields exactly three entries; the focal entry sits at
window offset `1` with absolute rank `2` and `isCurrent` true, the others
are not current. -/
theorem C5_witness :
    (rankingNeighbors [c5s1, c5s2, c5s3] "n2").length = 3 ∧
    ((rankingNeighbors [c5s1, c5s2, c5s3] "n2")[1]?.map
      (fun x => (x.absoluteRank, x.isCurrent))) = some (2, true) ∧
    ((rankingNeighbors [c5s1, c5s2, c5s3] "n2")[0]?.map (fun x => x.isCurrent)) =
      some false ∧
    ((rankingNeighbors [c5s1, c5s2, c5s3] "n2")[2]?.map (fun x => x.isCurrent)) =
      some false := by
  have hs12 : songLe c5s1 c5s2 = true := by
    norm_num [songLe, sortSongsAlgorithm, c5s1, c5s2, mkSW, abs_lt]
  have hs13 : songLe c5s1 c5s3 = true := by
    norm_num [songLe, sortSongsAlgorithm, c5s1, c5s3, mkSW, abs_lt]
  have hs23 : songLe c5s2 c5s3 = true := by
    norm_num [songLe, sortSongsAlgorithm, c5s2, c5s3, mkSW, abs_lt]
  have hsort : sortSongs [c5s1, c5s2, c5s3] = [c5s1, c5s2, c5s3] := by
    rw [sortSongs, mergeSort_three, mergeSort_two, if_pos hs12]
    simp [List.merge, hs13, hs23]
  have hfind : (sortSongs [c5s1, c5s2, c5s3]).findIdx? (fun s => s.id == "n2") =
      some 1 := by
    rw [hsort]
    decide
  have h := C5_rankingNeighbors_window [c5s1, c5s2, c5s3] "n2" 1 hfind
  have heval : rankingNeighbors [c5s1, c5s2, c5s3] "n2" =
      [ { toSongWithStats := c5s1, absoluteRank := 1, isCurrent := false },
        { toSongWithStats := c5s2, absoluteRank := 2, isCurrent := true },
        { toSongWithStats := c5s3, absoluteRank := 3, isCurrent := false } ] := by
    rw [h.2.1, hsort]
    norm_num [show ([c5s1, c5s2, c5s3] : List SongWithStats).length = 3 from rfl,
      show windowStart 1 3 = 0 from by decide,
      show (c5s1.id == "n2") = false from by decide,
      show (c5s2.id == "n2") = true from by decide,
      show (c5s3.id == "n2") = false from by decide]
  rw [heval]
  refine ⟨rfl, rfl, rfl, rfl⟩

end MuseMetric

namespace MuseMetric

/-- The character-stream containment test is exactly substring (infix)
containment. -/
theorem listContains_iff_infix (hay needle : List Char) :
    listContains hay needle = true ↔ needle <:+: hay := by
  induction hay with
  | nil =>
    simp [listContains, List.isEmpty_iff]
  | cons c t ih =>
    simp only [listContains, Bool.or_eq_true, List.isPrefixOf_iff_prefix, ih,
      List.infix_cons_iff]

/-- First-match characterization of the matcher's `find` step: the result is
`s` exactly when the catalog splits as `pre ++ s :: post` with `s` matching
and nothing in `pre` matching. -/
theorem findMatchedSong_eq_some_iff (songs : List Song) (fileName : String) (s : Song) :
    findMatchedSong songs fileName = some s ↔
      ∃ pre post, songs = pre ++ s :: post ∧ matchPred fileName s = true ∧
        ∀ x ∈ pre, matchPred fileName x = false := by
  induction songs with
  | nil => simp [findMatchedSong]
  | cons a t ih =>
    by_cases hpa : matchPred fileName a = true
    · simp only [findMatchedSong, List.find?_cons, hpa, Option.some.injEq]
      constructor
      · rintro rfl
        exact ⟨[], t, rfl, hpa, by simp⟩
      · rintro ⟨pre, post, heq, hs, hpre⟩
        cases pre with
        | nil =>
          simp only [List.nil_append, List.cons.injEq] at heq
          exact heq.1
        | cons y ys =>
          simp only [List.cons_append, List.cons.injEq] at heq
          exact absurd (heq.1 ▸ hpa) (by simp [hpre y (by simp)])
    · have hL : findMatchedSong (a :: t) fileName = findMatchedSong t fileName := by
        simp only [findMatchedSong, List.find?_cons]
        rw [Bool.not_eq_true] at hpa
        rw [hpa]
      rw [hL, ih]
      constructor
      · rintro ⟨pre, post, heq, hs, hpre⟩
        refine ⟨a :: pre, post, by simp [heq], hs, ?_⟩
        intro x hx
        rcases List.mem_cons.mp hx with rfl | hx'
        · exact Bool.not_eq_true _ |>.mp hpa
        · exact hpre x hx'
      · rintro ⟨pre, post, heq, hs, hpre⟩
        cases pre with
        | nil =>
          simp only [List.nil_append, List.cons.injEq] at heq
          exact absurd (heq.1 ▸ hs) hpa
        | cons y ys =>
          simp only [List.cons_append, List.cons.injEq] at heq
          exact ⟨ys, post, heq.2, hs, fun x hx => hpre x (by simp [hx])⟩

/-- C6.  A candidate file matches a song exactly when the normalized
filename contains the normalized title as a substring and the normalized
title is non-empty; the first matching song in catalog order wins.  In
particular `"01. Yesterday.mp3"` normalizes to `"yesterday"` and matches a
song titled `"Yesterday"`, `"B-Side_Track.flac"` does not match a song
titled `"Track Two"`, and with both `"Yes"` and `"Yesterday"` in the catalog
the first one wins. -/
theorem C6_matchRule :
    (∀ (fileName : String) (song : Song),
      matchPred fileName song = true ↔
        (normalizeTitle song.title <:+: normalize fileName ∧
          normalizeTitle song.title ≠ [])) ∧
    (∀ (songs : List Song) (fileName : String) (s : Song),
      findMatchedSong songs fileName = some s ↔
        ∃ pre post, songs = pre ++ s :: post ∧ matchPred fileName s = true ∧
          ∀ x ∈ pre, matchPred fileName x = false) ∧
    normalize "01. Yesterday.mp3" = "yesterday".toList ∧
    normalizeTitle "Yesterday" = "yesterday".toList ∧
    findMatchedSong [c6yesterday] "01. Yesterday.mp3" = some c6yesterday ∧
    findMatchedSong [c6track] "B-Side_Track.flac" = none ∧
    findMatchedSong [c6yes, c6yesterday] "01. Yesterday.mp3" = some c6yes := by
  refine ⟨?_, findMatchedSong_eq_some_iff, by decide, by decide, rfl, rfl, rfl⟩
  intro fileName song
  simp only [matchPred, Bool.and_eq_true, listContains_iff_infix, decide_eq_true_eq]
  constructor
  · rintro ⟨h1, h2⟩
    exact ⟨h1, by intro h; simp [h] at h2⟩
  · rintro ⟨h1, h2⟩
    refine ⟨h1, ?_⟩
    cases hn : normalizeTitle song.title with
    | nil => exact absurd hn h2
    | cons c cs => simp

end MuseMetric

namespace MuseMetric

/-- No file name classifies as both audio and lyric: the lowered name cannot
end in `".lrc"` and in one of the audio extensions at once. -/
theorem audio_lrc_exclusive (f : String) :
    isAudioFile f = true → isLrcFile f = false := by
  intro ha
  rw [Bool.eq_false_iff]
  intro hl
  simp only [isAudioFile, List.any_eq_true] at ha
  obtain ⟨ext, hext, hend⟩ := ha
  simp only [isLrcFile, endsWithChars, List.isPrefixOf_iff_prefix] at hend hl
  fin_cases hext <;>
    exact absurd (List.prefix_of_prefix_length_le hl hend (by decide)) (by decide)

/-- JavaScript `Map.set` followed by `Map.get`. -/
theorem mapGet_mapSet (m : List (String × SongUpdate)) (k k' : String) (v : SongUpdate) :
    mapGet (mapSet m k v) k' = if k' = k then some v else mapGet m k' := by
  induction m with
  | nil =>
    simp only [mapSet, mapGet, List.find?_cons, List.find?_nil]
    by_cases h : k' = k
    · simp [h]
    · simp only [if_neg h]
      have : (k == k') = false := by
        simpa [beq_iff_eq] using fun e => h e.symm
      simp [this]
  | cons p t ih =>
    simp only [mapSet]
    by_cases hpk : (p.1 == k) = true
    · rw [if_pos hpk]
      have hpk' : p.1 = k := beq_iff_eq.mp hpk
      by_cases h : k' = k
      · simp [mapGet, List.find?_cons, h]
      · have h1 : (k == k') = false := by
          simpa [beq_iff_eq] using fun e => h e.symm
        have h2 : (p.1 == k') = false := by
          simpa [beq_iff_eq, hpk'] using fun e => h e.symm
        simp [mapGet, List.find?_cons, h1, h2, if_neg h]
    · rw [if_neg hpk]
      by_cases h : k' = k
      · have h2 : (p.1 == k') = false := by
          subst h
          simpa using hpk
        simp only [mapGet, List.find?_cons, h2, if_pos h]
        have := ih
        simp only [mapGet] at this
        rw [this, if_pos h]
      · simp only [mapGet, List.find?_cons]
        by_cases hp' : (p.1 == k') = true
        · simp [hp', if_neg h]
        · simp only [Bool.not_eq_true] at hp'
          simp only [hp']
          have := ih
          simp only [mapGet] at this
          rw [this, if_neg h]

/-- One scan step, characterized by the file's outcome: counters increase
only on a successful persistence of the matching media type, and only the
matched song's pending update changes. -/
theorem matchAndPersist_spec (persistOk : String → MediaType → String → Bool)
    (songs : List Song) (st : ScanState) (f : String) :
    (matchAndPersist persistOk songs st f).audio =
      st.audio + (if outcomeIs MediaType.audio (fileOutcome persistOk songs f) then 1 else 0) ∧
    (matchAndPersist persistOk songs st f).lrc =
      st.lrc + (if outcomeIs MediaType.lrc (fileOutcome persistOk songs f) then 1 else 0) ∧
    ∀ k, mapGet (matchAndPersist persistOk songs st f).matchedSongsMap k =
      (match fileOutcome persistOk songs f with
       | some (kid, t) =>
         if k = kid then
           some (if t = MediaType.audio
             then { (mapGet st.matchedSongsMap kid).getD {} with hasAudio := true }
             else { (mapGet st.matchedSongsMap kid).getD {} with hasLrc := true })
         else mapGet st.matchedSongsMap k
       | none => mapGet st.matchedSongsMap k) := by
  by_cases hskip : (!isAudioFile f && !isLrcFile f) = true
  · simp [matchAndPersist, fileOutcome, hskip, outcomeIs]
  · cases hm : findMatchedSong songs f with
    | none => simp [matchAndPersist, fileOutcome, hskip, hm, outcomeIs]
    | some s =>
      by_cases hp : persistOk s.id
          (if isAudioFile f then MediaType.audio else MediaType.lrc) f = true
      · by_cases ha : isAudioFile f = true
        · have hl : isLrcFile f = false := audio_lrc_exclusive f ha
          have hp2 : persistOk s.id MediaType.audio f = true := by
            simpa [ha] using hp
          have hout : fileOutcome persistOk songs f = some (s.id, MediaType.audio) := by
            simp [fileOutcome, hskip, hm, ha, hl, hp2]
          refine ⟨?_, ?_, ?_⟩
          · simp [matchAndPersist, hskip, hm, ha, hl, hp2, hout, outcomeIs]
          · simp [matchAndPersist, hskip, hm, ha, hl, hp2, hout, outcomeIs]
          · intro k
            simp only [matchAndPersist, ha, hl, hm, hp2, Bool.not_true, Bool.not_false,
              Bool.false_and, Bool.false_eq_true, if_false, if_true, hout]
            simp [mapGet_mapSet]
        · have ha2 : isAudioFile f = false := by simpa using ha
          have hl : isLrcFile f = true := by
            by_contra hcon
            exact hskip (by simp [ha2, (by simpa using hcon : isLrcFile f = false)])
          have hp2 : persistOk s.id MediaType.lrc f = true := by
            simpa [ha2] using hp
          have hout : fileOutcome persistOk songs f = some (s.id, MediaType.lrc) := by
            simp [fileOutcome, hskip, hm, ha2, hl, hp2]
          refine ⟨?_, ?_, ?_⟩
          · simp [matchAndPersist, hskip, hm, ha2, hl, hp2, hout, outcomeIs]
          · simp [matchAndPersist, hskip, hm, ha2, hl, hp2, hout, outcomeIs]
          · intro k
            simp only [matchAndPersist, ha2, hl, hm, hp2, Bool.not_true, Bool.not_false,
              Bool.and_false, Bool.false_eq_true, if_false, if_true, hout]
            simp [mapGet_mapSet]
      · have hp2 : persistOk s.id
            (if isAudioFile f then MediaType.audio else MediaType.lrc) f = false := by
          simpa using hp
        have hout : fileOutcome persistOk songs f = none := by
          simp [fileOutcome, hskip, hm, hp2]
        simp [matchAndPersist, hskip, hm, hp2, hout, outcomeIs]

end MuseMetric

namespace MuseMetric

/-- Folding the scan step over a file list, from any starting state: the
counters gain exactly the number of successful per-type outcomes, and each
song's pending update accumulates exactly its successful outcomes. -/
theorem scan_foldl_spec (persistOk : String → MediaType → String → Bool)
    (songs : List Song) (files : List String) :
    ∀ st : ScanState,
      (files.foldl (matchAndPersist persistOk songs) st).audio =
        st.audio + (files.filter
          (fun f => outcomeIs MediaType.audio (fileOutcome persistOk songs f))).length ∧
      (files.foldl (matchAndPersist persistOk songs) st).lrc =
        st.lrc + (files.filter
          (fun f => outcomeIs MediaType.lrc (fileOutcome persistOk songs f))).length ∧
      ∀ k, mapGet (files.foldl (matchAndPersist persistOk songs) st).matchedSongsMap k =
        (match mapGet st.matchedSongsMap k with
         | some u => some
            ⟨u.hasAudio || files.any (fun f =>
                decide (fileOutcome persistOk songs f = some (k, MediaType.audio))),
             u.hasLrc || files.any (fun f =>
                decide (fileOutcome persistOk songs f = some (k, MediaType.lrc)))⟩
         | none =>
            if files.any (fun f =>
                decide (fileOutcome persistOk songs f = some (k, MediaType.audio))) ||
               files.any (fun f =>
                decide (fileOutcome persistOk songs f = some (k, MediaType.lrc))) then
              some
                ⟨files.any (fun f =>
                    decide (fileOutcome persistOk songs f = some (k, MediaType.audio))),
                 files.any (fun f =>
                    decide (fileOutcome persistOk songs f = some (k, MediaType.lrc)))⟩
            else none) := by
  induction files with
  | nil =>
    intro st
    refine ⟨by simp, by simp, ?_⟩
    intro k
    cases hu : mapGet st.matchedSongsMap k <;> simp [hu]
  | cons f rest ih =>
    intro st
    obtain ⟨hsa, hsl, hsm⟩ := matchAndPersist_spec persistOk songs st f
    obtain ⟨ha, hl, hm⟩ := ih (matchAndPersist persistOk songs st f)
    refine ⟨?_, ?_, ?_⟩
    · rw [List.foldl_cons, ha, hsa, List.filter_cons]
      by_cases hf : outcomeIs MediaType.audio (fileOutcome persistOk songs f) = true
      · simp [hf]
        omega
      · simp only [Bool.not_eq_true] at hf
        simp [hf]
    · rw [List.foldl_cons, hl, hsl, List.filter_cons]
      by_cases hf : outcomeIs MediaType.lrc (fileOutcome persistOk songs f) = true
      · simp [hf]
        omega
      · simp only [Bool.not_eq_true] at hf
        simp [hf]
    · intro k
      rw [List.foldl_cons, hm k, hsm k]
      cases ho : fileOutcome persistOk songs f with
      | none =>
        simp [ho]
      | some p =>
        obtain ⟨kid, t⟩ := p
        dsimp only
        by_cases hk : k = kid
        · subst hk
          simp only [if_pos rfl, List.any_cons, ho]
          cases hu : mapGet st.matchedSongsMap k with
          | none =>
            cases t <;>
              simp [outcomeIs, SongUpdate.hasAudio, SongUpdate.hasLrc]
          | some u =>
            cases t <;>
              simp [outcomeIs, SongUpdate.hasAudio, SongUpdate.hasLrc]
        · rw [if_neg hk]
          have hne : kid ≠ k := fun h => hk h.symm
          have hda : decide (fileOutcome persistOk songs f = some (k, MediaType.audio)) =
              false := by
            simp [ho, hne]
          have hdl : decide (fileOutcome persistOk songs f = some (k, MediaType.lrc)) =
              false := by
            simp [ho, hne]
          simp only [List.any_cons, hda, hdl, Bool.false_or]

end MuseMetric

namespace MuseMetric

/-- C8.  A persistence failure for one candidate file does not abort the
scan: the fold processes every file, the two counters equal the number of
files whose classification, match and persistence all succeeded (failed
files contribute nothing), and a song's `hasAudio`/`hasLrc` flags are set
exactly when some successfully persisted file of that type matched it —
songs touched only by failed persistence keep their flags. -/
theorem C8_scan_isolation (persistOk : String → MediaType → String → Bool)
    (songs : List Song) (fileNames : List String) :
    (scanAndMatchFileList persistOk songs fileNames).matchedAudioCount =
      (fileNames.filter
        (fun f => outcomeIs MediaType.audio (fileOutcome persistOk songs f))).length ∧
    (scanAndMatchFileList persistOk songs fileNames).matchedLrcCount =
      (fileNames.filter
        (fun f => outcomeIs MediaType.lrc (fileOutcome persistOk songs f))).length ∧
    (scanAndMatchFileList persistOk songs fileNames).updatedSongs =
      songs.map (fun song =>
        { song with
          hasAudio := if fileNames.any (fun f =>
              decide (fileOutcome persistOk songs f = some (song.id, MediaType.audio))) then
              some true
            else song.hasAudio
          hasLrc := if fileNames.any (fun f =>
              decide (fileOutcome persistOk songs f = some (song.id, MediaType.lrc))) then
              some true
            else song.hasLrc }) := by
  obtain ⟨ha, hl, hm⟩ := scan_foldl_spec persistOk songs fileNames {}
  refine ⟨?_, ?_, ?_⟩
  · simpa [scanAndMatchFileList] using ha
  · simpa [scanAndMatchFileList] using hl
  · simp only [scanAndMatchFileList, applyUpdates]
    apply List.map_congr_left
    intro song hmem
    rw [hm song.id]
    have hinit : mapGet ({} : ScanState).matchedSongsMap song.id = none := rfl
    rw [hinit]
    by_cases hga : fileNames.any (fun f =>
        decide (fileOutcome persistOk songs f = some (song.id, MediaType.audio))) = true <;>
      by_cases hgl : fileNames.any (fun f =>
        decide (fileOutcome persistOk songs f = some (song.id, MediaType.lrc))) = true <;>
      simp [hga, hgl]

/-- Witness for `C8_scan_isolation`: two songs, three candidate files, and a
capability that fails to persist `"alpha.mp3"`.  The scan still processes
the remaining files: one audio and one lyric success, both on `"Beta"`,
while `"Alpha"` receives no flag update. -/
theorem C8_witness :
    (scanAndMatchFileList c8persist [c8alpha, c8beta]
      ["alpha.mp3", "beta.mp3", "beta.lrc"]).matchedAudioCount = 1 ∧
    (scanAndMatchFileList c8persist [c8alpha, c8beta]
      ["alpha.mp3", "beta.mp3", "beta.lrc"]).matchedLrcCount = 1 ∧
    (scanAndMatchFileList c8persist [c8alpha, c8beta]
      ["alpha.mp3", "beta.mp3", "beta.lrc"]).updatedSongs =
      [c8alpha, { c8beta with hasAudio := some true, hasLrc := some true }] := by
  obtain ⟨ha, hl, hu⟩ := C8_scan_isolation c8persist [c8alpha, c8beta]
    ["alpha.mp3", "beta.mp3", "beta.lrc"]
  refine ⟨?_, ?_, ?_⟩
  · rw [ha]
    decide
  · rw [hl]
    decide
  · rw [hu]
    decide

end MuseMetric

namespace MuseMetric

/-- A non-nullish song record always sanitizes successfully. -/
theorem sanitizeSong_ok (gen : Nat → String) (n : Nat) (song : JsValue)
    (h : isNullish song = false) : ∃ r, sanitizeSong gen n song = .ok r := by
  rw [sanitizeSong, if_neg (by simp [h])]
  exact ⟨_, rfl⟩

/-- A list of non-nullish song records always sanitizes successfully. -/
theorem sanitizeSongs_ok (gen : Nat → String) (songs : List JsValue)
    (h : songs.all (fun s => !isNullish s) = true) :
    ∀ n, ∃ r, sanitizeSongs gen n songs = .ok r := by
  induction songs with
  | nil => exact fun n => ⟨([], n), rfl⟩
  | cons s rest ih =>
    intro n
    simp only [List.all_cons, Bool.and_eq_true, Bool.not_eq_true'] at h
    obtain ⟨r1, hr1⟩ := sanitizeSong_ok gen n s h.1
    obtain ⟨r2, hr2⟩ := ih (by simpa using h.2) r1.2
    refine ⟨(r1.1 :: r2.1, r2.2), ?_⟩
    simp [sanitizeSongs, Bind.bind, Except.bind, hr1, hr2]

/-- An album record that is non-nullish, whose `songs` field (when an array)
holds only non-nullish entries, sanitizes successfully. -/
theorem sanitizeAlbum_ok (gen : Nat → String) (n : Nat) (album : JsValue)
    (h : isNullish album = false)
    (hs : (match fieldOf album "songs" with
           | .arr songs => songs.all (fun s => !isNullish s)
           | _ => true) = true) :
    ∃ r, sanitizeAlbum gen n album = .ok r := by
  cases hres : sanitizeAlbum gen n album with
  | ok r => exact ⟨r, rfl⟩
  | error e =>
    exfalso
    rw [sanitizeAlbum, if_neg (by simp [h])] at hres
    cases hfs : fieldOf album "songs" with
    | arr songs =>
      rw [hfs] at hres hs
      simp only at hs
      by_cases hid : jsTruthy (fieldOf album "id") = true
      · obtain ⟨r, hr⟩ := sanitizeSongs_ok gen songs hs n
        simp [Bind.bind, Except.bind, hid, hr] at hres
      · obtain ⟨r, hr⟩ := sanitizeSongs_ok gen songs hs (n + 1)
        simp [Bind.bind, Except.bind, hid, hr] at hres
    | null => rw [hfs] at hres; simp [Bind.bind, Except.bind] at hres
    | undefined => rw [hfs] at hres; simp [Bind.bind, Except.bind] at hres
    | bool b => rw [hfs] at hres; simp [Bind.bind, Except.bind] at hres
    | num q => rw [hfs] at hres; simp [Bind.bind, Except.bind] at hres
    | str st => rw [hfs] at hres; simp [Bind.bind, Except.bind] at hres
    | obj fs => rw [hfs] at hres; simp [Bind.bind, Except.bind] at hres

/-- A list of well-based album records sanitizes successfully. -/
theorem sanitizeAlbums_ok (gen : Nat → String) (albums : List JsValue)
    (h : albums.all (fun album =>
      !isNullish album &&
      (match fieldOf album "songs" with
       | .arr songs => songs.all (fun s => !isNullish s)
       | _ => true)) = true) :
    ∀ n, ∃ r, sanitizeAlbums gen n albums = .ok r := by
  induction albums with
  | nil => exact fun n => ⟨([], n), rfl⟩
  | cons a rest ih =>
    intro n
    simp only [List.all_cons, Bool.and_eq_true, Bool.not_eq_true'] at h
    obtain ⟨r1, hr1⟩ := sanitizeAlbum_ok gen n a h.1.1 h.1.2
    obtain ⟨r2, hr2⟩ := ih h.2 r1.2
    refine ⟨(r1.1 :: r2.1, r2.2), ?_⟩
    simp [sanitizeAlbums, Bind.bind, Except.bind, hr1, hr2]

/-- A singer record that is non-nullish and well-based in its albums and
songs sanitizes successfully. -/
theorem sanitizeSinger_ok (gen : Nat → String) (n : Nat) (singer : JsValue)
    (h : isNullish singer = false)
    (hs : (match fieldOf singer "albums" with
           | .arr albums => albums.all (fun album =>
               !isNullish album &&
               (match fieldOf album "songs" with
                | .arr songs => songs.all (fun s => !isNullish s)
                | _ => true))
           | _ => true) = true) :
    ∃ r, sanitizeSinger gen n singer = .ok r := by
  cases hres : sanitizeSinger gen n singer with
  | ok r => exact ⟨r, rfl⟩
  | error e =>
    exfalso
    rw [sanitizeSinger, if_neg (by simp [h])] at hres
    cases hfs : fieldOf singer "albums" with
    | arr albums =>
      rw [hfs] at hres hs
      simp only at hs
      by_cases hid : jsTruthy (fieldOf singer "id") = true
      · obtain ⟨r, hr⟩ := sanitizeAlbums_ok gen albums hs n
        simp [Bind.bind, Except.bind, hid, hr] at hres
      · obtain ⟨r, hr⟩ := sanitizeAlbums_ok gen albums hs (n + 1)
        simp [Bind.bind, Except.bind, hid, hr] at hres
    | null => rw [hfs] at hres; simp [Bind.bind, Except.bind] at hres
    | undefined => rw [hfs] at hres; simp [Bind.bind, Except.bind] at hres
    | bool b => rw [hfs] at hres; simp [Bind.bind, Except.bind] at hres
    | num q => rw [hfs] at hres; simp [Bind.bind, Except.bind] at hres
    | str st => rw [hfs] at hres; simp [Bind.bind, Except.bind] at hres
    | obj fs => rw [hfs] at hres; simp [Bind.bind, Except.bind] at hres

/-- A list of well-based singer records sanitizes successfully. -/
theorem sanitizeSingers_ok (gen : Nat → String) (singers : List JsValue)
    (h : singers.all (fun singer =>
      !isNullish singer &&
      (match fieldOf singer "albums" with
       | .arr albums => albums.all (fun album =>
           !isNullish album &&
           (match fieldOf album "songs" with
            | .arr songs => songs.all (fun s => !isNullish s)
            | _ => true))
       | _ => true)) = true) :
    ∀ n, ∃ r, sanitizeSingers gen n singers = .ok r := by
  induction singers with
  | nil => exact fun n => ⟨([], n), rfl⟩
  | cons a rest ih =>
    intro n
    simp only [List.all_cons, Bool.and_eq_true, Bool.not_eq_true'] at h
    obtain ⟨r1, hr1⟩ := sanitizeSinger_ok gen n a h.1.1 h.1.2
    obtain ⟨r2, hr2⟩ := ih h.2 r1.2
    refine ⟨(r1.1 :: r2.1, r2.2), ?_⟩
    simp [sanitizeSingers, Bind.bind, Except.bind, hr1, hr2]

end MuseMetric

namespace MuseMetric

/-- C3 (counterexample).  The claim asserts the sanitizer never throws for
any input, including nested garbage.  But a `null` entry in the top-level
array throws: JavaScript property access `singer.id` on `null` raises a
`TypeError`, embedded here as the `.error` result on input `[null]`. -/
theorem C3_counterexample :
    sanitizeSingerImport (fun _ => "fresh-id") (JsValue.arr [JsValue.null]) =
      .error "TypeError: cannot read properties of null" := rfl

/-- C3 (amended).  A non-sequence top-level value yields the empty sequence;
the sanitizer never throws provided no singer, album or song entry position
holds `null` or `undefined` (the condition forced by the counterexample);
and `[\x7balbums: "not-an-array"\x7d]` yields exactly one singer with a
generated id, the placeholder name, and an empty album list. -/
theorem C3_amended :
    (∀ (gen : Nat → String) (data : JsValue),
      (∀ elems, data ≠ JsValue.arr elems) → sanitizeSingerImport gen data = .ok []) ∧
    (∀ (gen : Nat → String) (data : JsValue), wellBased data = true →
      ∃ res, sanitizeSingerImport gen data = .ok res) ∧
    (∀ gen : Nat → String,
      sanitizeSingerImport gen
          (JsValue.arr [JsValue.obj [("albums", JsValue.str "not-an-array")]]) =
        .ok [{ id := .str (gen 0), name := .str "Unknown Singer", albums := [] }]) := by
  refine ⟨?_, ?_, fun gen => rfl⟩
  · intro gen data hne
    cases data with
    | arr elems => exact absurd rfl (hne elems)
    | null => rfl
    | undefined => rfl
    | bool b => rfl
    | num q => rfl
    | str s => rfl
    | obj fields => rfl
  · intro gen data hwb
    cases data with
    | arr singers =>
      rw [wellBased] at hwb
      obtain ⟨r, hr⟩ := sanitizeSingers_ok gen singers hwb 0
      exact ⟨r.1, by simp [sanitizeSingerImport, hr, Except.map]⟩
    | null => exact ⟨[], rfl⟩
    | undefined => exact ⟨[], rfl⟩
    | bool b => exact ⟨[], rfl⟩
    | num q => exact ⟨[], rfl⟩
    | str s => exact ⟨[], rfl⟩
    | obj fields => exact ⟨[], rfl⟩

/-- Witness for `C3_amended` at concrete inputs: a string top level yields
the empty list; the well-based input `[\x7b\x7d]` (one empty object)
sanitizes successfully; the `albums:"not-an-array"` record yields one
defaulted singer. -/
theorem C3_amended_witness :
    sanitizeSingerImport (fun _ => "fresh-id") (JsValue.str "garbage") = .ok [] ∧
    (∃ res, sanitizeSingerImport (fun _ => "fresh-id") (JsValue.arr [JsValue.obj []]) =
      .ok res) ∧
    sanitizeSingerImport (fun _ => "fresh-id")
        (JsValue.arr [JsValue.obj [("albums", JsValue.str "not-an-array")]]) =
      .ok [{ id := .str "fresh-id", name := .str "Unknown Singer", albums := [] }] := by
  have h := C3_amended
  exact ⟨h.1 (fun _ => "fresh-id") (JsValue.str "garbage") (by intro elems h; cases h),
    h.2.1 (fun _ => "fresh-id") (JsValue.arr [JsValue.obj []]) (by decide),
    h.2.2 (fun _ => "fresh-id")⟩

end MuseMetric

namespace MuseMetric

/-- The decimal parser on the characters of `"7.5"`, with the arithmetic
left as an unevaluated expression. -/
theorem parseFloatStr_75 :
    parseFloatStr "7.5".toList =
      some ((1 : ℚ) * (((7 : ℕ) : ℚ) + ((5 : ℕ) : ℚ) / (10 : ℚ) ^ (1 : ℕ))) := rfl

/-- The `parseScore` helper on the string `"7.5"`. -/
theorem parseScore_str75 : parseScore (JsValue.str "7.5") = 7.5 := by
  simp only [parseScore, parseFloatJs, parseFloatStr_75, Option.getD_some]
  norm_num

/-- C9.  Sanitizing a song record reads scores from `scores` or, failing
that, `score`; accepts lower-case or capitalized dimension names; parses
each value as a float; and resolves unparsable or missing values to `0`
(the embedding produces a genuine rational in every case and can never
throw for a non-nullish record).  In particular
`\x7btitle:"X", score:\x7bLyrics:"7.5", composition:4\x7d\x7d` sanitizes to
scores `\x7blyrics:7.5, composition:4, arrangement:0\x7d`. -/
theorem C9_sanitize_legacy_scores :
    (∀ (gen : Nat → String) (n : Nat) (song : JsValue), isNullish song = false →
      ∃ r, sanitizeSong gen n song = .ok r) ∧
    (∀ (gen : Nat → String) (n : Nat),
      sanitizeSong gen n
          (JsValue.obj [("title", JsValue.str "X"),
            ("score", JsValue.obj [("Lyrics", JsValue.str "7.5"),
              ("composition", JsValue.num 4)])]) =
        .ok ({ id := .str (gen n), title := .str "X", comment := .str "",
               scores := ⟨7.5, 4, 0⟩, hasAudio := .undefined, hasLrc := .undefined,
               highlightStartTime := .undefined }, n + 1)) := by
  refine ⟨sanitizeSong_ok, ?_⟩
  intro gen n
  have hX : sanitizeSong gen n
      (JsValue.obj [("title", JsValue.str "X"),
        ("score", JsValue.obj [("Lyrics", JsValue.str "7.5"),
          ("composition", JsValue.num 4)])]) =
      .ok ({ id := .str (gen n), title := .str "X", comment := .str "",
             scores := ⟨parseScore (JsValue.str "7.5"), parseScore (JsValue.num 4),
               parseScore JsValue.undefined⟩,
             hasAudio := .undefined, hasLrc := .undefined,
             highlightStartTime := .undefined }, n + 1) := rfl
  rw [hX, parseScore_str75,
    show parseScore (JsValue.num 4) = 4 from rfl,
    show parseScore JsValue.undefined = 0 from rfl]

/-- Witness for `C9_sanitize_legacy_scores`: the totality part applied to a
concrete non-nullish record (the number `5`, whose property accesses all
yield `undefined`). -/
theorem C9_witness :
    ∃ r, sanitizeSong (fun _ => "fresh-id") 0 (JsValue.num 5) = .ok r :=
  C9_sanitize_legacy_scores.1 (fun _ => "fresh-id") 0 (JsValue.num 5) rfl

end MuseMetric

namespace MuseMetric

/-- The dashboard rank assignment on the concrete catalog `[c7m, c7a, c7b]`:
the stable sort orders it `[c7b, c7m, c7a]` (the `0.001` window is
intransitive across the three songs), so the ranks are `m ↦ 2`, `a ↦ 3`,
`b ↦ 1`. -/
theorem songsWithRank_c7_eval :
    songsWithRank [c7m, c7a, c7b] =
      [{ toSongWithStats := c7m, rank := 2 },
       { toSongWithStats := c7a, rank := 3 },
       { toSongWithStats := c7b, rank := 1 }] := by
  have hma : songLe c7m c7a = true := by
    norm_num [songLe, sortSongsAlgorithm, c7m, c7a, mkSW, abs_lt]
  have hmb : songLe c7m c7b = false := by
    norm_num [songLe, sortSongsAlgorithm, c7m, c7b, mkSW, abs_lt]
  have hsort : sortSongs [c7m, c7a, c7b] = [c7b, c7m, c7a] := by
    rw [sortSongs, mergeSort_three, mergeSort_two, if_pos hma]
    simp [List.merge, hmb]
  simp only [songsWithRank, hsort, List.map]
  rw [show List.findIdx? (fun s => s.id == c7m.id) [c7b, c7m, c7a] = some 1 from by decide,
    show List.findIdx? (fun s => s.id == c7a.id) [c7b, c7m, c7a] = some 2 from by decide,
    show List.findIdx? (fun s => s.id == c7b.id) [c7b, c7m, c7a] = some 0 from by decide]

/-- C7 (counterexample).  The claim asserts that for every pair of songs
whose totals differ by less than `0.001`, the table comparator (key `total`,
descending) orders them as the core comparator does.  On the catalog
`[c7m, c7a, c7b]` the dashboard assigns ranks `a ↦ 3`, `b ↦ 1`; the pair
`(a, b)` is within the total window, the core comparator puts `a` strictly
first (composition `5.0005 > 5`), but the composition difference `0.0005`
is inside the table's `> 0.001` significance test, so the table falls back
to the precomputed rank and puts `b` first: the comparators disagree. -/
theorem C7_counterexample :
    songsWithRank [c7m, c7a, c7b] =
      [{ toSongWithStats := c7m, rank := 2 },
       { toSongWithStats := c7a, rank := 3 },
       { toSongWithStats := c7b, rank := 1 }] ∧
    |c7a.totalScore - c7b.totalScore| < 0.001 ∧
    sortSongsAlgorithm c7a c7b < 0 ∧
    sortDataCmp ⟨SortKey.total, SortDir.desc⟩
      { toSongWithStats := c7a, rank := 3 }
      { toSongWithStats := c7b, rank := 1 } > 0 := by
  refine ⟨songsWithRank_c7_eval, ?_, ?_, ?_⟩
  · norm_num [c7a, c7b, mkSW, abs_lt]
  · norm_num [sortSongsAlgorithm, c7a, c7b, mkSW, abs_lt]
  · norm_num [sortDataCmp, c7a, c7b, mkSW, lt_abs]

/-- C7 (amended).  When sorting by total in descending direction, a pair of
songs whose totals differ by less than `0.001` is ordered by the table
comparator exactly as by the core comparator *provided* their composition
scores differ by more than `0.001` (the comparator values are then equal);
when the composition difference is at most `0.001` the table instead falls
back to the precomputed rank, which the counterexample shows can invert the
core composition tie-break. -/
theorem C7_amended :
    (∀ a b : SongWithRank, |a.totalScore - b.totalScore| < 0.001 →
      0.001 < |a.scores.composition - b.scores.composition| →
      sortDataCmp ⟨SortKey.total, SortDir.desc⟩ a b =
        sortSongsAlgorithm a.toSongWithStats b.toSongWithStats) ∧
    (∀ a b : SongWithRank, |a.totalScore - b.totalScore| < 0.001 →
      |a.scores.composition - b.scores.composition| ≤ 0.001 →
      sortDataCmp ⟨SortKey.total, SortDir.desc⟩ a b =
        (a.rank : ℚ) - (b.rank : ℚ)) := by
  constructor
  · intro a b h hc
    have h1 : ¬ (|a.totalScore - b.totalScore| > 0.001) := by linarith
    have hcore : sortSongsAlgorithm a.toSongWithStats b.toSongWithStats =
        b.scores.composition - a.scores.composition := by
      apply sortSongsAlgorithm_of_tie
      rw [abs_sub_comm]
      exact h
    simp only [sortDataCmp]
    simp [h1, hc, hcore]
  · intro a b h hc
    have h1 : ¬ (|a.totalScore - b.totalScore| > 0.001) := by linarith
    have h2 : ¬ (|a.scores.composition - b.scores.composition| > 0.001) := by linarith
    simp only [sortDataCmp]
    simp [h1, h2]

/-- Witness for `C7_amended` at concrete pairs: `(c7b, c7m)` (totals tied,
compositions apart) agrees with the core comparator, `(c7a, c7b)` (totals
tied, compositions within the window) falls back to ranks `3 - 1`. -/
theorem C7_amended_witness :
    sortDataCmp ⟨SortKey.total, SortDir.desc⟩
        { toSongWithStats := c7b, rank := 1 } { toSongWithStats := c7m, rank := 2 } =
      sortSongsAlgorithm c7b c7m ∧
    sortDataCmp ⟨SortKey.total, SortDir.desc⟩
        { toSongWithStats := c7a, rank := 3 } { toSongWithStats := c7b, rank := 1 } =
      (3 : ℚ) - 1 := by
  constructor
  · exact C7_amended.1 { toSongWithStats := c7b, rank := 1 }
      { toSongWithStats := c7m, rank := 2 }
      (by norm_num [c7b, c7m, mkSW, abs_lt])
      (by norm_num [c7b, c7m, mkSW, abs_lt])
  · exact C7_amended.2 { toSongWithStats := c7a, rank := 3 }
      { toSongWithStats := c7b, rank := 1 }
      (by norm_num [c7a, c7b, mkSW, abs_lt])
      (by norm_num [c7a, c7b, mkSW, abs_le])

end MuseMetric
